import Mathlib

/-!
# Vehicle safety dynamics simulator: safe speed search

A shallow embedding of `src/main.cpp` (classes `VehicleParameters` and
`SafeSpeedCalculator`) and the properties of its stability evaluator
`checkMaximumLimits` and of its bisection `calculateMaximumSafeSpeed`.

Number model.  The C++ type `ld` (`long double`) is embedded as the extended
rationals: a finite value is a rational, and the IEEE 754 special values `+inf`,
`-inf` and `NaN` are kept, because the program reaches them (division by a zero
velocity, inverse sine outside `[-1, 1]`).  Zero is unsigned and divides like
`+0`.  A decimal literal of the source (`9.80665`, `1e-9`, ...) is taken at its
decimal value.  The functions of `<cmath>` and the constant `M_PI` are not part of
the repository: they are fields of the parameter `CMath`, and every theorem holds
for every such library.

Rounding.  The control flow of the program depends on rounding in one place, the
traversal loop of the evaluator: it accumulates `time += timeStep` and stops when
`time < timeMax` fails, so the rounding of the step and of the sums decides how
many steps are simulated, and at which times.  There the embedding rounds: the
step `timeMax / 10000` and every sum `time + timeStep` go through the rounding
`fl` of the platform, a field of `CMath` of which only a bound on the relative
error is assumed; every theorem holds for every such rounding, exact arithmetic
included.  The bound leaves out underflow and overflow: a `timeMax` so small that
the step rounds to zero is outside the embedding.  Everywhere else a finite
result is taken exact.  The bisection does not round: its bounds are multiples of
`10000 / 2 ^ 44`, below `10000`, which a 64-bit mantissa holds exactly.
-/

namespace VehicleSafety

/-! ## The number type `ld` -/

/-- Values of the C++ type `ld` (`typedef long double ld`): a finite value, the
two infinities, or NaN. -/
inductive ld where
  | fin (q : ℚ)
  | pinf
  | ninf
  | nan
deriving DecidableEq

namespace ld

instance : Inhabited ld := ⟨fin 0⟩

instance : Coe ℚ ld := ⟨fin⟩

instance (n : ℕ) [OfNat ℚ n] : OfNat ld n := ⟨fin (OfNat.ofNat n)⟩

/-- Unary minus. -/
def neg : ld → ld
  | fin a => fin (-a)
  | pinf => ninf
  | ninf => pinf
  | nan => nan

/-- Addition: `inf + -inf` is NaN. -/
def add : ld → ld → ld
  | nan, _ => nan
  | _, nan => nan
  | fin a, fin b => fin (a + b)
  | pinf, ninf => nan
  | ninf, pinf => nan
  | pinf, _ => pinf
  | _, pinf => pinf
  | ninf, _ => ninf
  | _, ninf => ninf

/-- Multiplication: `0 * inf` is NaN, otherwise the sign rule. -/
def mul : ld → ld → ld
  | nan, _ => nan
  | _, nan => nan
  | fin a, fin b => fin (a * b)
  | fin a, pinf => if 0 < a then pinf else if a < 0 then ninf else nan
  | fin a, ninf => if 0 < a then ninf else if a < 0 then pinf else nan
  | pinf, fin b => if 0 < b then pinf else if b < 0 then ninf else nan
  | ninf, fin b => if 0 < b then ninf else if b < 0 then pinf else nan
  | pinf, pinf => pinf
  | pinf, ninf => ninf
  | ninf, pinf => ninf
  | ninf, ninf => pinf

/-- Division: `x / 0` is an infinity of the sign of `x` for `x ≠ 0`, `0 / 0`
and `inf / inf` are NaN, a finite value over an infinity is `0`. -/
def div : ld → ld → ld
  | nan, _ => nan
  | _, nan => nan
  | fin a, fin b =>
    if b ≠ 0 then fin (a / b) else if 0 < a then pinf else if a < 0 then ninf else nan
  | fin _, pinf => fin 0
  | fin _, ninf => fin 0
  | pinf, fin b => if 0 ≤ b then pinf else ninf
  | ninf, fin b => if 0 ≤ b then ninf else pinf
  | pinf, pinf => nan
  | pinf, ninf => nan
  | ninf, pinf => nan
  | ninf, ninf => nan

instance : Neg ld := ⟨neg⟩
instance : Add ld := ⟨add⟩
instance : Sub ld := ⟨fun a b => add a (neg b)⟩
instance : Mul ld := ⟨mul⟩
instance : Div ld := ⟨div⟩

/-- The comparison `a < b`: false as soon as one side is NaN. -/
def lt : ld → ld → Bool
  | nan, _ => false
  | _, nan => false
  | fin a, fin b => decide (a < b)
  | fin _, pinf => true
  | fin _, ninf => false
  | pinf, _ => false
  | ninf, ninf => false
  | ninf, _ => true

/-- The comparison `a <= b`: false as soon as one side is NaN. -/
def le : ld → ld → Bool
  | nan, _ => false
  | _, nan => false
  | fin a, fin b => decide (a ≤ b)
  | fin _, pinf => true
  | fin _, ninf => false
  | pinf, pinf => true
  | pinf, _ => false
  | ninf, _ => true

/-- The comparison `a > b`. -/
def gt (a b : ld) : Bool := lt b a

/-- The comparison `a >= b`. -/
def ge (a b : ld) : Bool := le b a

/-- The function `std::max(a, b)`, which is `(a < b) ? b : a`. -/
def max (a b : ld) : ld := if lt a b then b else a

/-- The function `fabs`. -/
def fabs : ld → ld
  | fin a => fin |a|
  | pinf => pinf
  | ninf => pinf
  | nan => nan

/-- The function `pow(x, n)` for a natural exponent (the program uses `n = 2`). -/
def pow (x : ld) : ℕ → ld
  | 0 => fin 1
  | n + 1 => x * pow x n

end ld

/-! ## The platform: mathematical library and rounding -/

/-- The platform the program runs on: the part of `<cmath>` it uses, on finite
arguments, and the rounding `fl` of an exact sum or quotient to a `long double`.
It is a parameter of the embedding.  Nothing is assumed of the functions of
`<cmath>`.  Of the rounding, only that its relative error is at most `2 ^ -53`,
which every rounding mode of a binary format with a mantissa of 54 bits or more
satisfies away from underflow and overflow, round to nearest already with 53
bits; exact arithmetic is the instance `fl x = x`. -/
structure CMath where
  M_PI : ℚ
  sin : ℚ → ℚ
  cos : ℚ → ℚ
  asin : ℚ → ℚ
  atan : ℚ → ℚ
  atan2 : ℚ → ℚ → ℚ
  sqrt : ℚ → ℚ
  fl : ℚ → ℚ
  fl_err : ∀ x : ℚ, |fl x - x| ≤ |x| / 2 ^ 53

namespace CMath

/-- Rounding a value that is not negative loses at most its relative error. -/
theorem fl_lower (M : CMath) (x : ℚ) (hx : 0 ≤ x) : x - x / 2 ^ 53 ≤ M.fl x := by
  have h := M.fl_err x
  rw [abs_of_nonneg hx] at h
  have := (abs_le.1 h).1
  linarith

/-- Rounding a value that is not negative gains at most its relative error. -/
theorem fl_upper (M : CMath) (x : ℚ) (hx : 0 ≤ x) : M.fl x ≤ x + x / 2 ^ 53 := by
  have h := M.fl_err x
  rw [abs_of_nonneg hx] at h
  have := (abs_le.1 h).2
  linarith

/-- The rounded step `fl (q / 10000)` of a positive `q` is positive. -/
theorem fl_step_pos (M : CMath) (q : ℚ) (hq : 0 < q) : 0 < M.fl (q / 10000) := by
  have h := M.fl_lower (q / 10000) (by positivity)
  have e : q / 10000 - q / 10000 / 2 ^ 53 = q * ((1 - 1 / 2 ^ 53) / 10000) := by ring
  rw [e] at h
  exact lt_of_lt_of_le (mul_pos hq (by norm_num)) h

/-- One rounded step `time += timeStep` below `timeMax = q` advances the time by
at least `q / 20000`: the rounding errors are far smaller than the step. -/
theorem fl_step_progress (M : CMath) (q t : ℚ) (ht : 0 ≤ t) (htq : t < q) :
    t + q / 20000 ≤ M.fl (t + M.fl (q / 10000)) := by
  have hq : 0 < q := lt_of_le_of_lt ht htq
  have hs := M.fl_lower (q / 10000) (by positivity)
  have hs0 := M.fl_step_pos q hq
  have hx := M.fl_lower (t + M.fl (q / 10000)) (by linarith)
  norm_num at hs hx ⊢
  linarith

end CMath

namespace ld

/-- A result stored in a `long double`: a finite value is rounded by the
platform, an infinity or NaN is kept. -/
def round (M : CMath) : ld → ld
  | fin a => fin (M.fl a)
  | x => x

/-- The function `sin`: NaN at an infinity. -/
def sin (M : CMath) : ld → ld
  | fin a => fin (M.sin a)
  | _ => nan

/-- The function `cos`: NaN at an infinity. -/
def cos (M : CMath) : ld → ld
  | fin a => fin (M.cos a)
  | _ => nan

/-- The function `asin`: a domain error, with result NaN, outside `[-1, 1]`. -/
def asin (M : CMath) : ld → ld
  | fin a => if -1 ≤ a ∧ a ≤ 1 then fin (M.asin a) else nan
  | _ => nan

/-- The function `atan`: plus or minus `pi/2` at the infinities. -/
def atan (M : CMath) : ld → ld
  | fin a => fin (M.atan a)
  | pinf => fin (M.M_PI / 2)
  | ninf => fin (-(M.M_PI / 2))
  | nan => nan

/-- The function `atan2(y, x)` with its values at the infinities. -/
def atan2 (M : CMath) : ld → ld → ld
  | nan, _ => nan
  | _, nan => nan
  | fin y, fin x => fin (M.atan2 y x)
  | fin _, pinf => fin 0
  | fin y, ninf => if 0 ≤ y then fin M.M_PI else fin (-M.M_PI)
  | pinf, fin _ => fin (M.M_PI / 2)
  | ninf, fin _ => fin (-(M.M_PI / 2))
  | pinf, pinf => fin (M.M_PI / 4)
  | pinf, ninf => fin (3 * M.M_PI / 4)
  | ninf, pinf => fin (-(M.M_PI / 4))
  | ninf, ninf => fin (-(3 * M.M_PI / 4))

/-- The function `sqrt`: NaN below zero. -/
def sqrt (M : CMath) : ld → ld
  | fin a => if 0 ≤ a then fin (M.sqrt a) else nan
  | pinf => pinf
  | ninf => nan
  | nan => nan

end ld

/-! ## How the operations of `ld` unfold -/

namespace ld

theorem add_def (a b : ld) : a + b = add a b := rfl

theorem sub_def (a b : ld) : a - b = add a (neg b) := rfl

theorem mul_def (a b : ld) : a * b = mul a b := rfl

theorem div_def (a b : ld) : a / b = div a b := rfl

theorem neg_def (a : ld) : -a = neg a := rfl

theorem ofNat_def (n : ℕ) [OfNat ℚ n] : (OfNat.ofNat n : ld) = fin (OfNat.ofNat n) := rfl

end ld

/-! ## The data model -/

/-- The class `VehicleParameters`: geometry, mass and environment. -/
structure VehicleParameters where
  height : ld
  length : ld
  width : ld
  wheelbase : ld
  wheelWidth : ld
  mass : ld
  curveRadius : ld
  airPressure : ld
  temperature : ld
  windVelocity : ld
  windAngle : ld
  frictionCoeff : ld

/-- The constant `VehicleParameters::GRAVITY`. -/
def GRAVITY : ld := ld.fin (980665 / 100000)

/-- The constant `VehicleParameters::GAS_CONSTANT`. -/
def GAS_CONSTANT : ld := ld.fin (28705 / 100)

/-- The constant `VehicleParameters::DRAG_COEFFICIENT`. -/
def DRAG_COEFFICIENT : ld := ld.fin (525 / 1000)

/-- The constructor `VehicleParameters()`: the worst-case defaults. -/
def VehicleParameters.default (M : CMath) : VehicleParameters where
  height := ld.fin (38 / 10)
  length := ld.fin 12
  width := ld.fin (239 / 100)
  wheelbase := ld.fin 9
  wheelWidth := ld.fin (3 / 10)
  mass := ld.fin 12500
  curveRadius := ld.fin 30
  airPressure := ld.fin 101330
  temperature := ld.fin 313
  windVelocity := ld.fin 25
  windAngle := ld.fin M.M_PI / ld.fin 2
  frictionCoeff := ld.fin (4 / 10)

/-- The class `SafeSpeedCalculator`: the model and the two member fields that
`checkMaximumLimits` writes. -/
structure SafeSpeedCalculator where
  params : VehicleParameters
  theta : ld
  alpha : ld

namespace SafeSpeedCalculator

/-- The method `calculatePhi`. -/
def calculatePhi (s : SafeSpeedCalculator) (velocity time : ld) : ld :=
  (velocity * time) / s.params.curveRadius

/-- The method `calculateRelativeVelocityVertical`. -/
def calculateRelativeVelocityVertical (M : CMath) (s : SafeSpeedCalculator)
    (velocity time : ld) : ld :=
  velocity * ld.cos M (s.calculatePhi velocity time + s.theta)
    + s.params.windVelocity * ld.cos M s.params.windAngle

/-- The method `calculateRelativeVelocityHorizontal`. -/
def calculateRelativeVelocityHorizontal (M : CMath) (s : SafeSpeedCalculator)
    (velocity time : ld) : ld :=
  velocity * ld.sin M (s.calculatePhi velocity time + s.theta)
    + s.params.windVelocity * ld.sin M s.params.windAngle

/-- The method `calculateRelativeVelocity`. -/
def calculateRelativeVelocity (M : CMath) (vVert vHoriz : ld) : ld :=
  ld.sqrt M (ld.pow vVert 2 + ld.pow vHoriz 2)

/-- The method `calculateLambda`. -/
def calculateLambda (M : CMath) (vHoriz vVert : ld) : ld :=
  ld.atan2 M vHoriz vVert

/-- The method `calculateCentripetalForce`. -/
def calculateCentripetalForce (s : SafeSpeedCalculator) (velocity : ld) : ld :=
  (s.params.mass * ld.pow velocity 2) / (s.params.curveRadius + s.params.width)

/-- The method `calculateModifiedCentripetalForce`. -/
def calculateModifiedCentripetalForce (M : CMath) (s : SafeSpeedCalculator)
    (centripetalForce : ld) : ld :=
  centripetalForce * ld.cos M s.alpha

/-- The method `calculateCrossSectionalArea`. -/
def calculateCrossSectionalArea (M : CMath) (s : SafeSpeedCalculator) (lambda phi : ld) : ld :=
  s.params.height * (ld.fabs (s.params.width * ld.cos M (lambda - phi))
    + ld.fabs (s.params.length * ld.sin M (lambda - phi)))

/-- The method `calculateAerodynamicForce`. -/
def calculateAerodynamicForce (s : SafeSpeedCalculator) (area relativeVelocity : ld) : ld :=
  (DRAG_COEFFICIENT * s.params.airPressure * area * ld.pow relativeVelocity 2)
    / (GAS_CONSTANT * s.params.temperature)

/-- What one pass of the traversal loop computes before it updates the maxima. -/
structure StepLoads where
  frontForce : ld
  rearForce : ld
  torque : ld

/-- The body of the traversal loop of `checkMaximumLimits` up to the loads of the
step at `time`: the front and rear tire forces and the torque. -/
def stepLoads (M : CMath) (s : SafeSpeedCalculator) (velocity centripetalForce
    modifiedCentripetalForce time : ld) : StepLoads :=
  let vHoriz := s.calculateRelativeVelocityHorizontal M velocity time
  let vVert := s.calculateRelativeVelocityVertical M velocity time
  let relVel := calculateRelativeVelocity M vVert vHoriz
  let lambda := calculateLambda M vHoriz vVert
  let phi := s.calculatePhi velocity time
  let area := s.calculateCrossSectionalArea M lambda phi
  let aeroForce := s.calculateAerodynamicForce area relVel
  { frontForce := centripetalForce + (aeroForce * ld.sin M (lambda - phi - s.theta))
    rearForce := (centripetalForce * ld.cos M s.theta) + (aeroForce * ld.sin M (lambda - phi))
    torque := ld.fabs ((s.params.height / 2)
      * (aeroForce * ld.sin M (lambda - phi - s.alpha) + modifiedCentripetalForce)) }

/-- The running maxima of the traversal loop. -/
structure Maxima where
  maxTorque : ld
  maxForce : ld

/-- The whole body of the traversal loop: the loads of the step, then the two
updates of the running maxima. -/
def traversalBody (M : CMath) (s : SafeSpeedCalculator) (velocity centripetalForce
    modifiedCentripetalForce time : ld) (m : Maxima) : Maxima :=
  let l := stepLoads M s velocity centripetalForce modifiedCentripetalForce time
  { maxForce := ld.max m.maxForce (ld.max l.frontForce l.rearForce)
    maxTorque := ld.max m.maxTorque l.torque }

/-- The local `timeStep` of `checkMaximumLimits`: the quotient `timeMax / 10000`,
rounded as it is stored. -/
def timeStep (M : CMath) (timeMax : ld) : ld := ld.round M (timeMax / 10000)

/-- The update `time += timeStep` of the traversal loop: the sum, rounded as it
is stored. -/
def nextTime (M : CMath) (timeMax time : ld) : ld := ld.round M (time + timeStep M timeMax)

/-- A bound on the passes the traversal loop still has to make when it tests
`time < timeMax`: every update advances `time` by at least `timeMax / 20000`.
It is the measure under which the loop terminates. -/
def remainingSteps (timeMax time : ld) : ℕ :=
  match timeMax, time with
  | ld.fin q, ld.fin t => ⌈(q - t) / (q / 20000)⌉₊
  | ld.pinf, ld.fin _ => 1
  | _, _ => 0

/-- A step of the traversal loop keeps `0 <= time`. -/
theorem traversal_step_nonneg (M : CMath) (timeMax time : ld) (hinv : ld.le 0 time = true)
    (hg : ld.lt time timeMax = true) : ld.le 0 (nextTime M timeMax time) = true := by
  cases time <;> cases timeMax <;>
    simp [nextTime, timeStep, ld.round, ld.ofNat_def, ld.add_def, ld.div_def, ld.le, ld.lt,
      ld.add, ld.div] at hinv hg ⊢
  rename_i t q
  have hq : 0 < q := lt_of_le_of_lt hinv hg
  have := M.fl_step_progress q t hinv hg
  linarith

/-- A step of the traversal loop brings `time` closer to `timeMax`. -/
theorem traversal_step_decreases (M : CMath) (timeMax time : ld)
    (hinv : ld.le 0 time = true) (hg : ld.lt time timeMax = true) :
    remainingSteps timeMax (nextTime M timeMax time) < remainingSteps timeMax time := by
  cases time <;> cases timeMax <;>
    simp [nextTime, timeStep, ld.round, ld.ofNat_def, ld.add_def, ld.div_def, ld.le, ld.lt,
      ld.add, ld.div, remainingSteps] at hinv hg ⊢
  rename_i t q
  have hq : 0 < q := lt_of_le_of_lt hinv hg
  have hp := M.fl_step_progress q t hinv hg
  have hx : 0 < (q - t) / (q / 20000) := div_pos (sub_pos.2 hg) (by positivity)
  have e : (q - (t + q / 20000)) / (q / 20000) = (q - t) / (q / 20000) - 1 := by
    field_simp
    ring
  have hle : (q - M.fl (t + M.fl (q / 10000))) / (q / 20000) ≤ (q - t) / (q / 20000) - 1 := by
    rw [← e]
    exact div_le_div_of_nonneg_right (by linarith) (by positivity)
  apply Nat.lt_ceil.2
  by_cases h1 : 0 ≤ (q - M.fl (t + M.fl (q / 10000))) / (q / 20000)
  · have := Nat.ceil_lt_add_one h1
    linarith
  · rw [Nat.ceil_eq_zero.2 (le_of_not_le h1)]
    exact_mod_cast hx

/-- The loop `for (ld time = 0; time < timeMax; time += timeStep) body`, entered
at `time` with the accumulated value `acc`; `timeStep` is the value the program
computes before the loop, and both it and the updated `time` are rounded by the
platform.  The argument `hinv` records that `time` started at `0` and was only
stepped while below `timeMax`; it is what makes every step advance, hence the
loop terminating. -/
def traversalLoop {β : Type} (M : CMath) (body : ld → β → β) (timeMax time : ld)
    (hinv : ld.le 0 time = true) (acc : β) : β :=
  if hg : ld.lt time timeMax = true then
    traversalLoop M body timeMax (nextTime M timeMax time)
      (traversal_step_nonneg M timeMax time hinv hg) (body time acc)
  else acc
termination_by remainingSteps timeMax time
decreasing_by exact traversal_step_decreases M timeMax time hinv hg

/-- The method `checkMaximumLimits`: the verdict ("exceeds limits") and the
calculator after the call, whose fields `theta` and `alpha` were overwritten. -/
def checkMaximumLimits (M : CMath) (s : SafeSpeedCalculator) (velocity : ld) :
    Bool × SafeSpeedCalculator :=
  let s1 : SafeSpeedCalculator :=
    { s with theta := ld.fabs (ld.asin M (s.params.wheelbase / (2 * s.params.curveRadius))) }
  let s2 : SafeSpeedCalculator :=
    { s1 with alpha := ld.atan M ((s1.params.wheelWidth * ld.cos M s1.theta)
        / (s1.params.wheelbase * (1 + (ld.fin (1 / 2) * ld.sin M s1.theta)))) }
  let timeMax := (s2.params.curveRadius * (ld.fin M.M_PI / 2 - s2.theta)) / velocity
  let centripetalForce := s2.calculateCentripetalForce velocity
  let modifiedCentripetalForce := s2.calculateModifiedCentripetalForce M centripetalForce
  let m := traversalLoop M
    (s2.traversalBody M velocity centripetalForce modifiedCentripetalForce) timeMax 0
    (by decide) { maxTorque := 0, maxForce := 0 }
  let weightTorque :=
    (s2.params.mass * GRAVITY * (s2.params.width + (s2.params.wheelWidth * ld.cos M s2.theta))) / 2
  let frictionLimit := s2.params.mass * GRAVITY * s2.params.frictionCoeff
  (ld.ge m.maxTorque weightTorque || ld.ge m.maxForce frictionLimit, s2)

/-- The method `setRadius`. -/
def setRadius (s : SafeSpeedCalculator) (radius : ld) : SafeSpeedCalculator :=
  { s with params := { s.params with curveRadius := radius } }

/-! ### The evaluator as the specification words it

The quantities of the specification's section on the stability evaluator, each
under its name there; the theorems below compare `checkMaximumLimits` with them. -/

/-- The times at which the traversal loop, entered at `time`, runs its body, in
the order in which it does: the values `time` takes under the rounded updates
`time += timeStep` while the test `time < timeMax` holds. -/
def traversalTimesFrom (M : CMath) (timeMax time : ld) (hinv : ld.le 0 time = true) :
    List ld :=
  if hg : ld.lt time timeMax = true then
    time :: traversalTimesFrom M timeMax (nextTime M timeMax time)
      (traversal_step_nonneg M timeMax time hinv hg)
  else []
termination_by remainingSteps timeMax time
decreasing_by exact traversal_step_decreases M timeMax time hinv hg

/-- The simulated steps: the times at which the traversal loop runs its body
when entered at `time = 0`. -/
def traversalTimes (M : CMath) (timeMax : ld) : List ld :=
  traversalTimesFrom M timeMax 0 (by decide)

/-- The value of `time` after `k` updates `time += timeStep` from `0`, for a
finite `timeMax = q`. -/
def timeAt (M : CMath) (q : ℚ) : ℕ → ℚ
  | 0 => 0
  | k + 1 => M.fl (timeAt M q k + M.fl (q / 10000))

/-- The tire steer angle `theta = |asin(wheelbase / (2 curveRadius))|`. -/
def tireAngle (M : CMath) (p : VehicleParameters) : ld :=
  ld.fabs (ld.asin M (p.wheelbase / (2 * p.curveRadius)))

/-- The support angle
`alpha = atan((wheelWidth cos(theta)) / (wheelbase (1 + 0.5 sin(theta))))`. -/
def supportAngle (M : CMath) (p : VehicleParameters) : ld :=
  ld.atan M ((p.wheelWidth * ld.cos M (tireAngle M p))
    / (p.wheelbase * (1 + (ld.fin (1 / 2) * ld.sin M (tireAngle M p)))))

/-- The calculator after the geometry setup: `theta` and `alpha` hold the angles
of the model, whatever they held before. -/
def withGeometry (M : CMath) (s : SafeSpeedCalculator) : SafeSpeedCalculator :=
  { s with theta := tireAngle M s.params, alpha := supportAngle M s.params }

/-- The traversal time `timeMax = curveRadius (pi/2 - theta) / velocity`. -/
def timeMax (M : CMath) (s : SafeSpeedCalculator) (velocity : ld) : ld :=
  (s.params.curveRadius * (ld.fin M.M_PI / 2 - s.theta)) / velocity

/-- The threshold `weightTorque = mass GRAVITY (width + wheelWidth cos(theta)) / 2`. -/
def weightTorque (M : CMath) (s : SafeSpeedCalculator) : ld :=
  (s.params.mass * GRAVITY * (s.params.width + s.params.wheelWidth * ld.cos M s.theta)) / 2

/-- The threshold `frictionLimit = mass GRAVITY frictionCoeff`. -/
def frictionLimit (s : SafeSpeedCalculator) : ld :=
  s.params.mass * GRAVITY * s.params.frictionCoeff

/-- The loads of every simulated step, in order. -/
def simulatedLoads (M : CMath) (s : SafeSpeedCalculator) (velocity : ld) : List StepLoads :=
  (traversalTimes M (timeMax M s velocity)).map
    (stepLoads M s velocity (s.calculateCentripetalForce velocity)
      (s.calculateModifiedCentripetalForce M (s.calculateCentripetalForce velocity)))

/-- The maximum, starting from `0`, of the torque over all simulated steps. -/
def maxTorque (M : CMath) (s : SafeSpeedCalculator) (velocity : ld) : ld :=
  (simulatedLoads M s velocity).foldl (fun acc l => ld.max acc l.torque) 0

/-- The maximum, starting from `0`, of `max(frontForce, rearForce)` over all
simulated steps. -/
def maxForce (M : CMath) (s : SafeSpeedCalculator) (velocity : ld) : ld :=
  (simulatedLoads M s velocity).foldl
    (fun acc l => ld.max acc (ld.max l.frontForce l.rearForce)) 0

/-- The running maxima `maxTorque` and `maxForce` when the traversal loop of
`checkMaximumLimits(velocity)` ends: the loop of the method, on the object with
its geometry set, started from `0` and `0`. -/
def finalMaxima (M : CMath) (s : SafeSpeedCalculator) (velocity : ld) : Maxima :=
  traversalLoop M
    ((withGeometry M s).traversalBody M velocity
      ((withGeometry M s).calculateCentripetalForce velocity)
      ((withGeometry M s).calculateModifiedCentripetalForce M
        ((withGeometry M s).calculateCentripetalForce velocity)))
    (timeMax M (withGeometry M s) velocity) 0 (by decide) { maxTorque := 0, maxForce := 0 }

/-- The bearing `lambda - phi` of the relative wind in the step at `time`, as the
body of the traversal loop computes it. -/
def stepBearing (M : CMath) (s : SafeSpeedCalculator) (velocity time : ld) : ld :=
  calculateLambda M (s.calculateRelativeVelocityHorizontal M velocity time)
      (s.calculateRelativeVelocityVertical M velocity time)
    - s.calculatePhi velocity time

/-- The aerodynamic force `aeroForce` of the step at `time`, as the body of the
traversal loop computes it. -/
def stepAeroForce (M : CMath) (s : SafeSpeedCalculator) (velocity time : ld) : ld :=
  s.calculateAerodynamicForce
    (s.calculateCrossSectionalArea M
      (calculateLambda M (s.calculateRelativeVelocityHorizontal M velocity time)
        (s.calculateRelativeVelocityVertical M velocity time))
      (s.calculatePhi velocity time))
    (calculateRelativeVelocity M (s.calculateRelativeVelocityVertical M velocity time)
      (s.calculateRelativeVelocityHorizontal M velocity time))

end SafeSpeedCalculator

/-! ## The bisection

The locals `left`, `right` and `mid` of `calculateMaximumSafeSpeed` start at `0`
and `10000` and are only ever replaced by a midpoint, so they are finite: they
are embedded as rationals and handed to the evaluator as `ld.fin mid`.  The
search is written for any evaluator `check`, a function of the calculator
object and the speed that returns the verdict and the object after the call;
`SafeSpeedCalculator.calculateMaximumSafeSpeed` is its instance at
`checkMaximumLimits`. -/

namespace MaxSafeSpeedSearch

/-- The constant `EPSILON`. -/
def EPSILON : ℚ := 1 / 1000000000

/-- The state of the bisection loop: the locals `left` and `right` and the
object `obj` the evaluator is called on. -/
structure SearchState (σ : Type) where
  left : ℚ
  right : ℚ
  obj : σ

/-- The condition `right - left > EPSILON` of the `while` loop. -/
def loopGuard {σ : Type} (s : SearchState σ) : Prop := s.right - s.left > EPSILON

instance {σ : Type} (s : SearchState σ) : Decidable (loopGuard s) :=
  inferInstanceAs (Decidable (s.right - s.left > EPSILON))

/-- The body of the `while` loop: evaluate the midpoint, then move `right` to it
when it exceeds the limits and `left` otherwise. -/
def bisectionStep {σ : Type} (check : σ → ℚ → Bool × σ) (s : SearchState σ) : SearchState σ :=
  let mid := (s.left + s.right) / 2
  let r := check s.obj mid
  if r.1 then { left := s.left, right := mid, obj := r.2 }
  else { left := mid, right := s.right, obj := r.2 }

/-- The body of the loop halves `right - left`. -/
theorem bisectionStep_width {σ : Type} (check : σ → ℚ → Bool × σ) (s : SearchState σ) :
    (bisectionStep check s).right - (bisectionStep check s).left = (s.right - s.left) / 2 := by
  unfold bisectionStep
  by_cases h : (check s.obj ((s.left + s.right) / 2)).1 = true
  · simp only [h, if_true]
    ring
  · simp only [h]
    simp only [Bool.false_eq_true, if_false]
    ring

/-- The body of the loop, run under the loop condition, decreases the measure. -/
theorem bisectionStep_decreases {σ : Type} (check : σ → ℚ → Bool × σ) (s : SearchState σ)
    (h : loopGuard s) :
    ⌈((bisectionStep check s).right - (bisectionStep check s).left) / EPSILON⌉₊
      < ⌈(s.right - s.left) / EPSILON⌉₊ := by
  rw [bisectionStep_width]
  unfold loopGuard at h
  have he : (0 : ℚ) < EPSILON := by norm_num [EPSILON]
  have hx : 1 < (s.right - s.left) / EPSILON := (one_lt_div he).2 h
  have e : (s.right - s.left) / 2 / EPSILON = (s.right - s.left) / EPSILON / 2 := by ring
  rw [e]
  apply Nat.lt_ceil.2
  have h1 : (⌈(s.right - s.left) / EPSILON / 2⌉₊ : ℚ) < (s.right - s.left) / EPSILON / 2 + 1 :=
    Nat.ceil_lt_add_one (by linarith)
  by_cases h2 : 2 ≤ (s.right - s.left) / EPSILON
  · linarith
  · have h3 : ⌈(s.right - s.left) / EPSILON / 2⌉₊ ≤ 1 := Nat.ceil_le.2 (by push_cast; linarith)
    have h4 : (⌈(s.right - s.left) / EPSILON / 2⌉₊ : ℚ) ≤ 1 := by exact_mod_cast h3
    linarith

/-- The loop `while (right - left > EPSILON) body`, entered in the state `s`. -/
def bisectionLoop {σ : Type} (check : σ → ℚ → Bool × σ) (s : SearchState σ) : SearchState σ :=
  if _h : loopGuard s then bisectionLoop check (bisectionStep check s) else s
termination_by ⌈(s.right - s.left) / EPSILON⌉₊
decreasing_by exact bisectionStep_decreases check s (by assumption)

/-- How many times the `while` loop entered in the state `s` runs its body. -/
def bisectionIterations {σ : Type} (check : σ → ℚ → Bool × σ) (s : SearchState σ) : ℕ :=
  if h : loopGuard s then bisectionIterations check (bisectionStep check s) + 1 else 0
termination_by ⌈(s.right - s.left) / EPSILON⌉₊
decreasing_by exact bisectionStep_decreases check s h

/-- The state in which `calculateMaximumSafeSpeed` enters its loop. -/
def initialState {σ : Type} (obj : σ) : SearchState σ := { left := 0, right := 10000, obj := obj }

/-- The method `calculateMaximumSafeSpeed` over the evaluator `check`: the
returned speed (or the sentinel `-1`) and the object after the last call. -/
def calculateMaximumSafeSpeed {σ : Type} (check : σ → ℚ → Bool × σ) (obj : σ) : ℚ × σ :=
  let s := bisectionLoop check (initialState obj)
  let r := check s.obj s.left
  (if r.1 then -1 else s.left, r.2)

/-- The state of the search after `k` passes of the loop body. -/
def stateAfter {σ : Type} (check : σ → ℚ → Bool × σ) (obj : σ) (k : ℕ) : SearchState σ :=
  (bisectionStep check)^[k] (initialState obj)

/-- The speed `mid` that the pass after `k` earlier passes hands to the evaluator. -/
def midpointAt {σ : Type} (check : σ → ℚ → Bool × σ) (obj : σ) (k : ℕ) : ℚ :=
  ((stateAfter check obj k).left + (stateAfter check obj k).right) / 2

/-- The verdict the evaluator returns in the pass after `k` earlier passes. -/
def verdictAt {σ : Type} (check : σ → ℚ → Bool × σ) (obj : σ) (k : ℕ) : Bool :=
  (check (stateAfter check obj k).obj (midpointAt check obj k)).1

end MaxSafeSpeedSearch

/-- The method `SafeSpeedCalculator::calculateMaximumSafeSpeed`. -/
def SafeSpeedCalculator.calculateMaximumSafeSpeed (M : CMath) (s : SafeSpeedCalculator) :
    ℚ × SafeSpeedCalculator :=
  MaxSafeSpeedSearch.calculateMaximumSafeSpeed
    (fun obj velocity => obj.checkMaximumLimits M (ld.fin velocity)) s

/-! ## Evaluators with a known answer -/

/-- A synthetic evaluator without state: it exceeds the limits exactly from the
speed `t` on. -/
def thresholdCheck (t : ℚ) : Unit → ℚ → Bool × Unit := fun obj v => (decide (t ≤ v), obj)

/-- The evaluator without state whose verdict is the predicate `p` of the speed. -/
def pureCheck (p : ℚ → Bool) : Unit → ℚ → Bool × Unit := fun obj v => (p v, obj)

/-- A synthetic evaluator without state that exceeds the limits at every speed. -/
def alwaysExceeds : Unit → ℚ → Bool × Unit := fun obj _ => (true, obj)

/-- A platform with the simplest library values and exact arithmetic, for
statements at a concrete input whose outcome does not depend on the finite values
of the library. -/
def flatMath : CMath where
  M_PI := 355 / 113
  sin := fun _ => 0
  cos := fun _ => 1
  asin := fun _ => 0
  atan := fun _ => 0
  atan2 := fun _ _ => 0
  sqrt := fun _ => 0
  fl := fun x => x
  fl_err := fun x => by simpa using div_nonneg (abs_nonneg x) (by norm_num)

/-- A calculator as `main` builds it: the default model, and (arbitrarily) zero
in the two fields the constructor leaves uninitialised. -/
def SafeSpeedCalculator.initial (M : CMath) : SafeSpeedCalculator :=
  { params := VehicleParameters.default M, theta := 0, alpha := 0 }

/-- A platform with a library of truncated power series, close to the real
functions at the small angles of the reference geometry (`theta` about `0.15`,
`alpha` about `0.03`), and exact arithmetic.  Its `atan2` and `sqrt` are crude;
they only enter the aerodynamic force, and the statements made with this library
are at zero air pressure. -/
def seriesMath : CMath where
  M_PI := 355 / 113
  sin := fun x => x - x ^ 3 / 6
  cos := fun x => 1 - x ^ 2 / 2
  asin := fun x => x + x ^ 3 / 6
  atan := fun x => x - x ^ 3 / 3
  atan2 := fun y x => if x = 0 then 0 else y / x
  sqrt := fun x => if x = 0 then 0 else (x + 1) / 2
  fl := fun x => x
  fl_err := fun x => by simpa using div_nonneg (abs_nonneg x) (by norm_num)

/-- Rounding toward minus infinity to a mantissa of 64 bits: the value is cut to
a multiple of `2 ^ (e - 63)`, where `2 ^ e` is the largest power of two not above
its absolute value. -/
def roundDown (x : ℚ) : ℚ :=
  (⌊x / (2 : ℚ) ^ (Int.log 2 |x| - 63)⌋ : ℚ) * (2 : ℚ) ^ (Int.log 2 |x| - 63)

/-- Rounding toward minus infinity never rounds up. -/
theorem roundDown_le (x : ℚ) : roundDown x ≤ x := by
  have hs : (0 : ℚ) < (2 : ℚ) ^ (Int.log 2 |x| - 63) := zpow_pos (by norm_num) _
  have h := Int.floor_le (x / (2 : ℚ) ^ (Int.log 2 |x| - 63))
  calc roundDown x ≤ x / (2 : ℚ) ^ (Int.log 2 |x| - 63) * (2 : ℚ) ^ (Int.log 2 |x| - 63) :=
        mul_le_mul_of_nonneg_right h hs.le
    _ = x := div_mul_cancel₀ x hs.ne'

/-- Rounding toward minus infinity to 64 bits has a relative error below
`2 ^ -63`. -/
theorem roundDown_err (x : ℚ) : |roundDown x - x| ≤ |x| / 2 ^ 53 := by
  by_cases hx : x = 0
  · subst hx
    simp [roundDown]
  have hs : (0 : ℚ) < (2 : ℚ) ^ (Int.log 2 |x| - 63) := zpow_pos (by norm_num) _
  have h1 := roundDown_le x
  have h2 : x - roundDown x < (2 : ℚ) ^ (Int.log 2 |x| - 63) := by
    have h := Int.lt_floor_add_one (x / (2 : ℚ) ^ (Int.log 2 |x| - 63))
    have h3 : x < ((⌊x / (2 : ℚ) ^ (Int.log 2 |x| - 63)⌋ : ℚ) + 1)
        * (2 : ℚ) ^ (Int.log 2 |x| - 63) := (div_lt_iff₀ hs).1 h
    rw [roundDown]
    linarith
  have h3 : (2 : ℚ) ^ (Int.log 2 |x| - 63) ≤ |x| / 2 ^ 63 := by
    have e : (2 : ℚ) ^ (63 : ℤ) = 2 ^ 63 := by norm_num
    rw [zpow_sub₀ (by norm_num), e]
    have := Int.zpow_log_le_self (by norm_num : 1 < 2) (abs_pos.2 hx)
    exact div_le_div_of_nonneg_right (by exact_mod_cast this) (by positivity)
  have h4 : |x| / 2 ^ 63 ≤ |x| / 2 ^ 53 :=
    div_le_div_of_nonneg_left (abs_nonneg x) (by positivity) (by norm_num)
  rw [abs_sub_comm, abs_of_nonneg (by linarith)]
  linarith

/-- The platform of `seriesMath` with the rounding mode set toward minus
infinity. -/
def downwardMath : CMath :=
  { seriesMath with fl := roundDown, fl_err := roundDown_err }

/-- The angle `theta` of the default model (radius `30`) under `seriesMath`. -/
def calmTheta : ℚ := 2409 / 16000

/-- The angle `alpha` of the default model (radius `30`) under `seriesMath`. -/
def calmAlpha : ℚ :=
  seriesMath.atan
    ((3 / 10 * seriesMath.cos calmTheta) / (9 * (1 + 1 / 2 * seriesMath.sin calmTheta)))

/-- The polynomial `x - x^3/6 + x^5/120` of the sine series. -/
def sinSeries (x : ℚ) : ℚ := x - x ^ 3 / 6 + x ^ 5 / 120

/-- The polynomial `1 - x^2/2 + x^4/24` of the cosine series. -/
def cosSeries (x : ℚ) : ℚ := 1 - x ^ 2 / 2 + x ^ 4 / 24

/-- A platform whose library works as implementations do: sine and cosine reduce
their argument to `[-pi/4, pi/4]` around `0`, `pi/2` or `-pi/2` before they
evaluate a truncated series, `atan2` reduces to the inverse tangent of a ratio of
absolute value at most `1`, and the square root refines the integer square root
by two steps of Newton.  It is close to the real functions at the angles and
speeds of the reference model in its crosswind, and exact at the wind angle
`M_PI / 2`.  Its arithmetic is exact. -/
def reducedMath : CMath where
  M_PI := 355 / 113
  sin := fun x =>
    if -(355 / 452) ≤ x ∧ x ≤ 355 / 452 then sinSeries x
    else if -(355 / 452) ≤ x - 355 / 226 ∧ x - 355 / 226 ≤ 355 / 452 then
      cosSeries (x - 355 / 226)
    else if -(355 / 452) ≤ x + 355 / 226 ∧ x + 355 / 226 ≤ 355 / 452 then
      -cosSeries (x + 355 / 226)
    else sinSeries x
  cos := fun x =>
    if -(355 / 452) ≤ x ∧ x ≤ 355 / 452 then cosSeries x
    else if -(355 / 452) ≤ x - 355 / 226 ∧ x - 355 / 226 ≤ 355 / 452 then
      -sinSeries (x - 355 / 226)
    else if -(355 / 452) ≤ x + 355 / 226 ∧ x + 355 / 226 ≤ 355 / 452 then
      sinSeries (x + 355 / 226)
    else cosSeries x
  asin := fun x => x + x ^ 3 / 6
  atan := fun x => x - x ^ 3 / 3
  atan2 := fun y x =>
    if x = 0 ∧ y = 0 then 0
    else if |x| ≤ |y| then
      (if 0 < y then 355 / 226 else -(355 / 226)) - (x / y - (x / y) ^ 3 / 3)
    else if 0 < x then y / x - (y / x) ^ 3 / 3
    else if 0 ≤ y then y / x - (y / x) ^ 3 / 3 + 355 / 113
    else y / x - (y / x) ^ 3 / 3 - 355 / 113
  sqrt := fun x =>
    if x ≤ 0 then 0
    else
      (((Nat.sqrt ⌈x⌉₊ : ℚ) + x / (Nat.sqrt ⌈x⌉₊ : ℚ)) / 2
        + x / (((Nat.sqrt ⌈x⌉₊ : ℚ) + x / (Nat.sqrt ⌈x⌉₊ : ℚ)) / 2)) / 2
  fl := fun x => x
  fl_err := fun x => by simpa using div_nonneg (abs_nonneg x) (by norm_num)

/-- The angle `alpha` of the default model (radius `30`) under `reducedMath`. -/
def windAlpha : ℚ :=
  reducedMath.atan
    ((3 / 10 * reducedMath.cos calmTheta) / (9 * (1 + 1 / 2 * reducedMath.sin calmTheta)))

/-- The aerodynamic force, in newtons, of the default wind (`25` m/s across) on
the default model at rest: about `16875`. -/
def windForce : ℚ :=
  (525 / 1000 * 101330 * (38 / 10 * 12) * (25 * 25)) / (28705 / 100 * 313)

/-- The radii `testRadii` that `main` runs the search for. -/
def testRadii : List ld := [15, 30, 50, 80, 120, 230, 380, 570]

/-- The calculator of `main` on a model without aerodynamic load: the default
model with zero wind and zero drag (`windVelocity = 0`, `airPressure = 0`). -/
def SafeSpeedCalculator.calm (M : CMath) : SafeSpeedCalculator :=
  { params := { VehicleParameters.default M with windVelocity := 0, airPressure := 0 },
    theta := 0, alpha := 0 }

/-- The calculator of `main` on a model without friction: the default model with
`frictionCoeff = 0`. -/
def SafeSpeedCalculator.frictionless (M : CMath) : SafeSpeedCalculator :=
  { params := { VehicleParameters.default M with frictionCoeff := 0 }, theta := 0, alpha := 0 }

/-! ## The bisection loop: unfolding, width and iteration count -/

namespace MaxSafeSpeedSearch

variable {σ : Type}

theorem bisectionLoop_of_guard (check : σ → ℚ → Bool × σ) (s : SearchState σ)
    (h : loopGuard s) : bisectionLoop check s = bisectionLoop check (bisectionStep check s) := by
  rw [bisectionLoop, dif_pos h]

theorem bisectionLoop_of_not_guard (check : σ → ℚ → Bool × σ) (s : SearchState σ)
    (h : ¬ loopGuard s) : bisectionLoop check s = s := by
  rw [bisectionLoop, dif_neg h]

theorem bisectionIterations_of_guard (check : σ → ℚ → Bool × σ) (s : SearchState σ)
    (h : loopGuard s) :
    bisectionIterations check s = bisectionIterations check (bisectionStep check s) + 1 := by
  rw [bisectionIterations, dif_pos h]

theorem bisectionIterations_of_not_guard (check : σ → ℚ → Bool × σ) (s : SearchState σ)
    (h : ¬ loopGuard s) : bisectionIterations check s = 0 := by
  rw [bisectionIterations, dif_neg h]

/-- After `k` passes of the body the width of the interval is the initial width
over `2 ^ k`. -/
theorem iterate_width (check : σ → ℚ → Bool × σ) (s : SearchState σ) (k : ℕ) :
    ((bisectionStep check)^[k] s).right - ((bisectionStep check)^[k] s).left
      = (s.right - s.left) / 2 ^ k := by
  induction k generalizing s with
  | zero => simp
  | succ k ih =>
    rw [Function.iterate_succ_apply, ih, bisectionStep_width, pow_succ, div_div, mul_comm]

/-- A state whose width is `10000 / 2 ^ k` with `k <= 44` is `44 - k` passes
away from the end of the loop, and the loop ends in the state those passes
reach. -/
theorem loop_from_width (check : σ → ℚ → Bool × σ) (j : ℕ) :
    ∀ (s : SearchState σ) (k : ℕ), k + j = 44 → s.right - s.left = 10000 / 2 ^ k →
      bisectionIterations check s = j ∧
        bisectionLoop check s = (bisectionStep check)^[j] s := by
  induction j with
  | zero =>
    intro s k hk hw
    have hk44 : k = 44 := by omega
    subst hk44
    have hg : ¬ loopGuard s := by
      unfold loopGuard
      rw [hw]
      norm_num [EPSILON]
    exact ⟨bisectionIterations_of_not_guard check s hg, by
      rw [bisectionLoop_of_not_guard check s hg]; rfl⟩
  | succ j ih =>
    intro s k hk hw
    have hk43 : k ≤ 43 := by omega
    have hg : loopGuard s := by
      unfold loopGuard
      rw [hw]
      have h1 : (2 : ℚ) ^ k ≤ 2 ^ 43 := pow_le_pow_right₀ (by norm_num) hk43
      have h2 : (0 : ℚ) < 2 ^ k := by positivity
      have h3 : (10000 : ℚ) / 2 ^ 43 ≤ 10000 / 2 ^ k :=
        div_le_div_of_nonneg_left (by norm_num) h2 h1
      have h4 : EPSILON < (10000 : ℚ) / 2 ^ 43 := by norm_num [EPSILON]
      exact lt_of_lt_of_le h4 h3
    have hw2 : (bisectionStep check s).right - (bisectionStep check s).left
        = 10000 / 2 ^ (k + 1) := by
      rw [bisectionStep_width, hw, pow_succ]
      field_simp
    obtain ⟨h5, h6⟩ := ih (bisectionStep check s) (k + 1) (by omega) hw2
    refine ⟨?_, ?_⟩
    · rw [bisectionIterations_of_guard check s hg, h5]
    · rw [bisectionLoop_of_guard check s hg, h6, Function.iterate_succ_apply]

/-- From the initial interval `[0, 10000]` the loop runs its body 44 times. -/
theorem iterations_initial (check : σ → ℚ → Bool × σ) (obj : σ) :
    bisectionIterations check (initialState obj) = 44 :=
  (loop_from_width check 44 (initialState obj) 0 (by norm_num)
    (by simp [initialState])).1

/-- From the initial interval the loop ends in the state 44 passes reach. -/
theorem loop_initial (check : σ → ℚ → Bool × σ) (obj : σ) :
    bisectionLoop check (initialState obj) = (bisectionStep check)^[44] (initialState obj) :=
  (loop_from_width check 44 (initialState obj) 0 (by norm_num)
    (by simp [initialState])).2

/-! ## Invariants of the bisection loop -/

/-- A property the body of the loop preserves holds after any number of passes. -/
theorem iterate_preserves (check : σ → ℚ → Bool × σ) (P : SearchState σ → Prop)
    (hstep : ∀ s, P s → P (bisectionStep check s)) (s : SearchState σ) (h0 : P s) (k : ℕ) :
    P ((bisectionStep check)^[k] s) := by
  induction k with
  | zero => exact h0
  | succ k ih =>
    rw [Function.iterate_succ_apply']
    exact hstep _ ih

/-- The two cases of the body of the loop. -/
theorem bisectionStep_cases (check : σ → ℚ → Bool × σ) (s : SearchState σ) :
    ((check s.obj ((s.left + s.right) / 2)).1 = true ∧
        (bisectionStep check s).left = s.left ∧
        (bisectionStep check s).right = (s.left + s.right) / 2) ∨
      ((check s.obj ((s.left + s.right) / 2)).1 = false ∧
        (bisectionStep check s).left = (s.left + s.right) / 2 ∧
        (bisectionStep check s).right = s.right) := by
  unfold bisectionStep
  cases h : (check s.obj ((s.left + s.right) / 2)).1 <;> simp [h]

/-- The object after a pass of the body is the object after the evaluation of
the midpoint. -/
theorem bisectionStep_obj (check : σ → ℚ → Bool × σ) (s : SearchState σ) :
    (bisectionStep check s).obj = (check s.obj ((s.left + s.right) / 2)).2 := by
  unfold bisectionStep
  cases h : (check s.obj ((s.left + s.right) / 2)).1 <;> simp [h]

/-- The interval stays inside `[0, 10000]` and non-empty. -/
theorem bounds_preserved (check : σ → ℚ → Bool × σ) (s : SearchState σ)
    (h : 0 ≤ s.left ∧ s.left < s.right ∧ s.right ≤ 10000) :
    0 ≤ (bisectionStep check s).left ∧
      (bisectionStep check s).left < (bisectionStep check s).right ∧
      (bisectionStep check s).right ≤ 10000 := by
  obtain ⟨h0, h1, h2⟩ := h
  rcases bisectionStep_cases check s with ⟨_, hl, hr⟩ | ⟨_, hl, hr⟩ <;>
    rw [hl, hr] <;> refine ⟨?_, ?_, ?_⟩ <;> linarith

/-- The bounds of the interval at the end of the loop. -/
theorem loop_bounds (check : σ → ℚ → Bool × σ) (obj : σ) :
    0 ≤ (bisectionLoop check (initialState obj)).left ∧
      (bisectionLoop check (initialState obj)).left
        < (bisectionLoop check (initialState obj)).right ∧
      (bisectionLoop check (initialState obj)).right ≤ 10000 := by
  rw [loop_initial]
  exact iterate_preserves check _ (bounds_preserved check) _
    (by simp [initialState]) 44

/-- With a verdict that does not depend on the object, `left` is `0` or a speed
found stable and `right` is `10000` or a speed found to exceed the limits. -/
theorem verdicts_preserved (check : σ → ℚ → Bool × σ) (p : ℚ → Bool)
    (hp : ∀ obj v, (check obj v).1 = p v) (s : SearchState σ)
    (h : (s.left = 0 ∨ p s.left = false) ∧ (s.right = 10000 ∨ p s.right = true)) :
    ((bisectionStep check s).left = 0 ∨ p (bisectionStep check s).left = false) ∧
      ((bisectionStep check s).right = 10000 ∨ p (bisectionStep check s).right = true) := by
  obtain ⟨h0, h1⟩ := h
  rcases bisectionStep_cases check s with ⟨hv, hl, hr⟩ | ⟨hv, hl, hr⟩ <;>
    rw [hl, hr] <;> rw [hp] at hv
  · exact ⟨h0, Or.inr hv⟩
  · exact ⟨Or.inr hv, h1⟩

/-- At the end of the loop `left` is `0` or a speed found stable. -/
theorem loop_left_stable (check : σ → ℚ → Bool × σ) (p : ℚ → Bool)
    (hp : ∀ obj v, (check obj v).1 = p v) (obj : σ) :
    (bisectionLoop check (initialState obj)).left = 0 ∨
      p (bisectionLoop check (initialState obj)).left = false := by
  rw [loop_initial]
  exact (iterate_preserves check _ (verdicts_preserved check p hp) _
    (by simp [initialState]) 44).1

/-- A threshold stays inside the interval: `left < t <= right`. -/
theorem threshold_preserved (check : σ → ℚ → Bool × σ) (t : ℚ)
    (hthr : ∀ obj v, (check obj v).1 = true ↔ t ≤ v) (s : SearchState σ)
    (h : s.left < t ∧ t ≤ s.right) :
    (bisectionStep check s).left < t ∧ t ≤ (bisectionStep check s).right := by
  obtain ⟨h0, h1⟩ := h
  rcases bisectionStep_cases check s with ⟨hv, hl, hr⟩ | ⟨hv, hl, hr⟩ <;> rw [hl, hr]
  · exact ⟨h0, (hthr _ _).1 hv⟩
  · refine ⟨?_, h1⟩
    by_contra hc
    have := (hthr s.obj ((s.left + s.right) / 2)).2 (not_lt.1 hc)
    rw [hv] at this
    exact Bool.false_ne_true this

/-- When the evaluator is monotone and exceeds the limits at speed `0`, `left`
never leaves `0`. -/
theorem left_zero_preserved (check : σ → ℚ → Bool × σ) (p : ℚ → Bool)
    (hp : ∀ obj v, (check obj v).1 = p v)
    (hmono : ∀ v w, v ≤ w → p v = true → p w = true) (h0 : p 0 = true) (s : SearchState σ)
    (h : s.left = 0 ∧ 0 < s.right) :
    (bisectionStep check s).left = 0 ∧ 0 < (bisectionStep check s).right := by
  obtain ⟨hl0, hr0⟩ := h
  have hmid : p ((s.left + s.right) / 2) = true :=
    hmono 0 _ (by rw [hl0]; linarith) h0
  rcases bisectionStep_cases check s with ⟨_, hl, hr⟩ | ⟨hv, _, _⟩
  · rw [hl, hr, hl0]
    exact ⟨rfl, by linarith⟩
  · rw [hp, hmid] at hv
    exact absurd hv (by simp)

/-- The width of the interval at the end of the loop. -/
theorem loop_width (check : σ → ℚ → Bool × σ) (obj : σ) :
    (bisectionLoop check (initialState obj)).right
      - (bisectionLoop check (initialState obj)).left = 10000 / 2 ^ 44 := by
  rw [loop_initial, iterate_width]
  simp [initialState]

/-- The value `calculateMaximumSafeSpeed` returns, from the state its loop ends in. -/
theorem result_eq (check : σ → ℚ → Bool × σ) (obj : σ) :
    (calculateMaximumSafeSpeed check obj).1
      = if (check (bisectionLoop check (initialState obj)).obj
            (bisectionLoop check (initialState obj)).left).1 = true
        then -1 else (bisectionLoop check (initialState obj)).left := by
  unfold calculateMaximumSafeSpeed
  by_cases h : (check (bisectionLoop check (initialState obj)).obj
      (bisectionLoop check (initialState obj)).left).1 = true
  · simp [h]
  · simp [h]

end MaxSafeSpeedSearch

/-! ## The search: convergence, no-solution policy, range of the result -/

namespace MaxSafeSpeedSearch

variable {σ : Type}

/-- C1. Bisection convergence: when the evaluator is a threshold predicate, true
exactly at the speeds `v >= t` for some `0 < t < 10000`, the speed `r` that
`calculateMaximumSafeSpeed` returns is not the sentinel `-1`, is stable (the
evaluator is false at `r`), lies below the threshold, `r < t`, and is within
`1e-9` of it, `|r - t| < 1e-9`. -/
theorem bisection_converges_to_threshold (check : σ → ℚ → Bool × σ) (t : ℚ)
    (ht0 : 0 < t) (ht1 : t < 10000)
    (hthr : ∀ obj v, (check obj v).1 = true ↔ t ≤ v) (obj : σ) :
    (calculateMaximumSafeSpeed check obj).1 ≠ -1 ∧
      (∀ obj2, (check obj2 (calculateMaximumSafeSpeed check obj).1).1 = false) ∧
      (calculateMaximumSafeSpeed check obj).1 < t ∧
      |(calculateMaximumSafeSpeed check obj).1 - t| < 1 / 1000000000 := by
  have hinv : (bisectionLoop check (initialState obj)).left < t ∧
      t ≤ (bisectionLoop check (initialState obj)).right := by
    rw [loop_initial]
    exact iterate_preserves check _ (threshold_preserved check t hthr) _
      (by simp only [initialState]; exact ⟨ht0, ht1.le⟩) 44
  have hw := loop_width check obj
  have hb := loop_bounds check obj
  have hstable : ∀ obj2, (check obj2 (bisectionLoop check (initialState obj)).left).1 = false := by
    intro obj2
    cases hc : (check obj2 (bisectionLoop check (initialState obj)).left).1
    · rfl
    · exact absurd ((hthr _ _).1 hc) (not_le.2 hinv.1)
  have hr : (calculateMaximumSafeSpeed check obj).1
      = (bisectionLoop check (initialState obj)).left := by
    rw [result_eq, hstable]
    simp
  rw [hr]
  refine ⟨by linarith [hb.1], hstable, hinv.1, ?_⟩
  rw [abs_lt]
  constructor
  · have : (10000 : ℚ) / 2 ^ 44 < 1 / 1000000000 := by norm_num
    linarith [hinv.2]
  · linarith [hinv.1]

/-- C1, at the synthetic evaluator with threshold `5`. -/
theorem bisection_converges_to_threshold_witness :
    (0 : ℚ) < 5 ∧ (5 : ℚ) < 10000 ∧
      (∀ (obj : Unit) (v : ℚ), (thresholdCheck 5 obj v).1 = true ↔ 5 ≤ v) ∧
      ((calculateMaximumSafeSpeed (thresholdCheck 5) ()).1 ≠ -1 ∧
        (∀ obj2, (thresholdCheck 5 obj2
          (calculateMaximumSafeSpeed (thresholdCheck 5) ()).1).1 = false) ∧
        (calculateMaximumSafeSpeed (thresholdCheck 5) ()).1 < 5 ∧
        |(calculateMaximumSafeSpeed (thresholdCheck 5) ()).1 - 5| < 1 / 1000000000) :=
  ⟨by norm_num, by norm_num, fun _ _ => by simp [thresholdCheck],
    bisection_converges_to_threshold (thresholdCheck 5) 5 (by norm_num) (by norm_num)
      (fun _ _ => by simp [thresholdCheck]) ()⟩

/-- C2. No-solution policy, for an evaluator whose verdict is the predicate `p`
of the speed: `calculateMaximumSafeSpeed` returns the sentinel `-1` exactly when
`p` reports "exceeds limits" at the final value of `left`; when `p` is monotone
non-decreasing in the speed this is the case if and only if `p` reports "exceeds
limits" at speed `0`; and when `p` is stable at speed `0`, monotone or not, the
sentinel is not returned. -/
theorem no_solution_policy (check : σ → ℚ → Bool × σ) (p : ℚ → Bool)
    (hp : ∀ obj v, (check obj v).1 = p v) (obj : σ) :
    ((calculateMaximumSafeSpeed check obj).1 = -1 ↔
        p (bisectionLoop check (initialState obj)).left = true) ∧
      ((∀ v w, v ≤ w → p v = true → p w = true) →
        ((calculateMaximumSafeSpeed check obj).1 = -1 ↔ p 0 = true)) ∧
      (p 0 = false → (calculateMaximumSafeSpeed check obj).1 ≠ -1) := by
  have hb := loop_bounds check obj
  have hl := loop_left_stable check p hp obj
  have hfirst : (calculateMaximumSafeSpeed check obj).1 = -1 ↔
      p (bisectionLoop check (initialState obj)).left = true := by
    rw [result_eq, hp]
    constructor
    · intro h
      by_contra hc
      rw [if_neg hc] at h
      linarith [hb.1]
    · intro h
      rw [if_pos h]
  refine ⟨hfirst, ?_, ?_⟩
  · intro hmono
    rw [hfirst]
    constructor
    · intro h
      rcases hl with h0 | h0
      · rwa [h0] at h
      · rw [h0] at h
        exact absurd h (by simp)
    · intro h0
      have hz : (bisectionLoop check (initialState obj)).left = 0 := by
        rw [loop_initial]
        exact (iterate_preserves check _ (left_zero_preserved check p hp hmono h0) _
          (by simp [initialState]) 44).1
      rwa [hz]
  · intro h0 h
    rw [hfirst] at h
    rcases hl with hz | hz
    · rw [hz, h0] at h
      exact absurd h (by simp)
    · rw [hz] at h
      exact absurd h (by simp)

/-- C2, at the synthetic evaluator with threshold `5` (monotone, stable at `0`:
a speed is returned) and at the evaluator that always exceeds the limits
(monotone, unstable at `0`: the sentinel is returned). -/
theorem no_solution_policy_witness :
    (∀ (obj : Unit) (v : ℚ), (thresholdCheck 5 obj v).1 = decide ((5 : ℚ) ≤ v)) ∧
      decide ((5 : ℚ) ≤ 0) = false ∧
      (calculateMaximumSafeSpeed (thresholdCheck 5) ()).1 ≠ -1 ∧
      (∀ (obj : Unit) (v : ℚ), (alwaysExceeds obj v).1 = true) ∧
      (calculateMaximumSafeSpeed alwaysExceeds ()).1 = -1 :=
  ⟨fun _ _ => rfl, by simp,
    (no_solution_policy (thresholdCheck 5) (fun v => decide ((5 : ℚ) ≤ v))
      (fun _ _ => rfl) ()).2.2 (by simp),
    fun _ _ => rfl,
    ((no_solution_policy alwaysExceeds (fun _ => true) (fun _ _ => rfl) ()).2.1
      (fun _ _ _ _ => rfl)).2 rfl⟩

/-- C3. For an evaluator whose verdict is any predicate `p` of the speed (not
assumed monotone), the value `r` that `calculateMaximumSafeSpeed` returns is
either the sentinel `-1`, or the final `left`, a speed with `0 <= r < 10000` at
which `p` is false (stable); the two cases exclude each other, so the sentinel is
not a value that is also returned as a speed. -/
theorem result_sentinel_or_stable_speed (check : σ → ℚ → Bool × σ) (p : ℚ → Bool)
    (hp : ∀ obj v, (check obj v).1 = p v) (obj : σ) :
    ((calculateMaximumSafeSpeed check obj).1 = -1 ∨
        ((calculateMaximumSafeSpeed check obj).1 = (bisectionLoop check (initialState obj)).left ∧
          0 ≤ (calculateMaximumSafeSpeed check obj).1 ∧
          (calculateMaximumSafeSpeed check obj).1 < 10000 ∧
          p (calculateMaximumSafeSpeed check obj).1 = false)) ∧
      ¬ ((calculateMaximumSafeSpeed check obj).1 = -1 ∧
        0 ≤ (calculateMaximumSafeSpeed check obj).1) := by
  have hb := loop_bounds check obj
  refine ⟨?_, fun h => by linarith [h.1, h.2]⟩
  rw [result_eq, hp]
  cases hc : p (bisectionLoop check (initialState obj)).left
  · right
    rw [if_neg (by simp)]
    exact ⟨rfl, hb.1, by linarith [hb.2.1, hb.2.2], hc⟩
  · left
    simp

/-- C3, at the synthetic evaluator with threshold `5`. -/
theorem result_sentinel_or_stable_speed_witness :
    (∀ (obj : Unit) (v : ℚ), (thresholdCheck 5 obj v).1 = decide ((5 : ℚ) ≤ v)) ∧
      (((calculateMaximumSafeSpeed (thresholdCheck 5) ()).1 = -1 ∨
        ((calculateMaximumSafeSpeed (thresholdCheck 5) ()).1
            = (bisectionLoop (thresholdCheck 5) (initialState ())).left ∧
          0 ≤ (calculateMaximumSafeSpeed (thresholdCheck 5) ()).1 ∧
          (calculateMaximumSafeSpeed (thresholdCheck 5) ()).1 < 10000 ∧
          decide ((5 : ℚ) ≤ (calculateMaximumSafeSpeed (thresholdCheck 5) ()).1) = false)) ∧
      ¬ ((calculateMaximumSafeSpeed (thresholdCheck 5) ()).1 = -1 ∧
        0 ≤ (calculateMaximumSafeSpeed (thresholdCheck 5) ()).1)) :=
  ⟨fun _ _ => rfl,
    result_sentinel_or_stable_speed (thresholdCheck 5) (fun v => decide ((5 : ℚ) ≤ v))
      (fun _ _ => rfl) ()⟩

/-! ## The search: termination and number of iterations -/

/-- After `k` passes from the initial interval the loop condition holds exactly
when `k < 44`. -/
theorem guard_after (check : σ → ℚ → Bool × σ) (obj : σ) (k : ℕ) :
    loopGuard ((bisectionStep check)^[k] (initialState obj)) ↔ k < 44 := by
  unfold loopGuard
  rw [iterate_width]
  simp only [initialState, sub_zero]
  have h2 : (0 : ℚ) < 2 ^ k := by positivity
  constructor
  · intro h
    by_contra hc
    have h1 : (2 : ℚ) ^ 44 ≤ 2 ^ k := pow_le_pow_right₀ (by norm_num) (not_lt.1 hc)
    have h3 : (10000 : ℚ) / 2 ^ k ≤ 10000 / 2 ^ 44 :=
      div_le_div_of_nonneg_left (by norm_num) (by positivity) h1
    have h4 : (10000 : ℚ) / 2 ^ 44 ≤ EPSILON := by norm_num [EPSILON]
    exact absurd h (not_lt.2 (le_trans h3 h4))
  · intro h
    have h1 : (2 : ℚ) ^ k ≤ 2 ^ 43 := pow_le_pow_right₀ (by norm_num) (by omega)
    have h3 : (10000 : ℚ) / 2 ^ 43 ≤ 10000 / 2 ^ k :=
      div_le_div_of_nonneg_left (by norm_num) h2 h1
    have h4 : EPSILON < (10000 : ℚ) / 2 ^ 43 := by norm_num [EPSILON]
    exact lt_of_lt_of_le h4 h3

/-- C5. The bisection loop of `calculateMaximumSafeSpeed` terminates for every
evaluator: it ends, after `bisectionIterations` passes of its body, in a state
in which its condition is false, the condition having held before each of these
passes; and the number of passes is the same for every two evaluators `check`
and `check2`, over any objects (models) `obj` and `obj2`: it does not depend on
the verdicts. -/
theorem bisection_terminates_same_count {τ : Type} (check : σ → ℚ → Bool × σ)
    (check2 : τ → ℚ → Bool × τ) (obj : σ) (obj2 : τ) :
    bisectionLoop check (initialState obj)
        = (bisectionStep check)^[bisectionIterations check (initialState obj)]
            (initialState obj) ∧
      ¬ loopGuard (bisectionLoop check (initialState obj)) ∧
      (∀ k, k < bisectionIterations check (initialState obj) →
        loopGuard ((bisectionStep check)^[k] (initialState obj))) ∧
      bisectionIterations check (initialState obj)
        = bisectionIterations check2 (initialState obj2) := by
  rw [iterations_initial check obj, iterations_initial check2 obj2, loop_initial check obj]
  refine ⟨rfl, ?_, ?_, rfl⟩
  · rw [guard_after]
    omega
  · intro k hk
    exact (guard_after check obj k).2 hk

/-- C6, as the claim states it, fails: at the synthetic evaluator with threshold
`5` the loop does not run 53 passes, its condition `right - left > 1e-9` is
already false after 44. -/
theorem iterations_not_53 :
    bisectionIterations (thresholdCheck 5) (initialState ()) ≠ 53 ∧
      ¬ loopGuard ((bisectionStep (thresholdCheck 5))^[44] (initialState ())) := by
  rw [iterations_initial, guard_after]
  exact ⟨by decide, by decide⟩

/-- C6, amended. Starting from `left = 0`, `right = 10000` with tolerance `1e-9`,
the bisection loop of `calculateMaximumSafeSpeed` performs 44 iterations: before
each of the first 44 passes `right - left > 1e-9` holds, after the 44th
`right - left = 10000 / 2 ^ 44 <= 1e-9`, and the loop stops there. -/
theorem iterations_eq_44 (check : σ → ℚ → Bool × σ) (obj : σ) :
    bisectionIterations check (initialState obj) = 44 ∧
      (∀ k, k < 44 → loopGuard ((bisectionStep check)^[k] (initialState obj))) ∧
      ¬ loopGuard ((bisectionStep check)^[44] (initialState obj)) ∧
      bisectionLoop check (initialState obj) = (bisectionStep check)^[44] (initialState obj) ∧
      (bisectionLoop check (initialState obj)).right
          - (bisectionLoop check (initialState obj)).left = 10000 / 2 ^ 44 ∧
      (10000 : ℚ) / 2 ^ 44 ≤ 1 / 1000000000 ∧ (1 : ℚ) / 1000000000 < 10000 / 2 ^ 43 := by
  refine ⟨iterations_initial check obj, fun k hk => (guard_after check obj k).2 hk, ?_,
    loop_initial check obj, loop_width check obj, by norm_num, by norm_num⟩
  rw [guard_after]
  omega

end MaxSafeSpeedSearch

/-! ## NaN in the operations of `ld` -/

namespace ld

@[simp] theorem nan_add (a : ld) : nan + a = nan := by cases a <;> rfl

@[simp] theorem add_nan (a : ld) : a + nan = nan := by cases a <;> rfl

@[simp] theorem nan_sub (a : ld) : nan - a = nan := by cases a <;> rfl

@[simp] theorem sub_nan (a : ld) : a - nan = nan := by cases a <;> rfl

@[simp] theorem nan_mul (a : ld) : nan * a = nan := by cases a <;> rfl

@[simp] theorem mul_nan (a : ld) : a * nan = nan := by cases a <;> rfl

@[simp] theorem nan_div (a : ld) : nan / a = nan := by cases a <;> rfl

@[simp] theorem div_nan (a : ld) : a / nan = nan := by cases a <;> rfl

@[simp] theorem lt_nan (a : ld) : lt a nan = false := by cases a <;> rfl

@[simp] theorem nan_lt (a : ld) : lt nan a = false := by cases a <;> rfl

@[simp] theorem le_nan (a : ld) : le a nan = false := by cases a <;> rfl

@[simp] theorem nan_le (a : ld) : le nan a = false := by cases a <;> rfl

@[simp] theorem ge_nan (a : ld) : ge a nan = false := by cases a <;> rfl

@[simp] theorem sin_nan (M : CMath) : sin M nan = nan := rfl

@[simp] theorem cos_nan (M : CMath) : cos M nan = nan := rfl

@[simp] theorem atan_nan (M : CMath) : atan M nan = nan := rfl

@[simp] theorem fabs_nan : fabs nan = nan := rfl

/-- The inverse sine of a value above `1` (infinite or not) is NaN. -/
theorem asin_of_gt_one (M : CMath) (a : ld) (h : lt 1 a = true) : asin M a = nan := by
  cases a with
  | fin q =>
    have hq : (1 : ℚ) < q := by simpa [ofNat_def, lt] using h
    simp only [asin]
    rw [if_neg]
    intro hc
    linarith [hc.2]
  | pinf => rfl
  | ninf => rfl
  | nan => rfl

end ld

/-! ## The traversal loop and the evaluator, unfolded -/

namespace SafeSpeedCalculator

/-- The traversal loop folds its body over the times at which it runs it. -/
theorem traversalLoop_eq_foldl {β : Type} (M : CMath) (body : ld → β → β) (timeMax : ld) :
    ∀ (n : ℕ) (time : ld) (hinv : ld.le 0 time = true) (acc : β),
      remainingSteps timeMax time = n →
      traversalLoop M body timeMax time hinv acc
        = (traversalTimesFrom M timeMax time hinv).foldl (fun a t => body t a) acc := by
  intro n
  induction n using Nat.strong_induction_on with
  | _ n ih =>
    intro time hinv acc hn
    rw [traversalLoop, traversalTimesFrom]
    by_cases hg : ld.lt time timeMax = true
    · rw [dif_pos hg, dif_pos hg, List.foldl_cons]
      exact ih _ (hn ▸ traversal_step_decreases M timeMax time hinv hg) _ _ _ rfl
    · rw [dif_neg hg, dif_neg hg]
      rfl

/-- The simulated steps are the trace of the traversal loop itself: run with a
body that records `time`, the loop returns them. -/
theorem traversalLoop_trace (M : CMath) (timeMax : ld) :
    traversalLoop M (fun t acc => acc ++ [t]) timeMax 0 (by decide) []
      = traversalTimes M timeMax := by
  rw [traversalLoop_eq_foldl M _ _ _ _ _ _ rfl, traversalTimes]
  generalize traversalTimesFrom M timeMax 0 _ = ts
  have h : ∀ (l acc : List ld), l.foldl (fun a t => a ++ [t]) acc = acc ++ l := by
    intro l
    induction l with
    | nil => intro acc; simp
    | cons t l ih => intro acc; rw [List.foldl_cons, ih]; simp
  simpa using h ts []

/-- The torque component of the folded body is the running maximum of the torque. -/
theorem foldl_body_maxTorque (M : CMath) (s : SafeSpeedCalculator) (v cF mCF : ld)
    (ts : List ld) (m : Maxima) :
    (ts.foldl (fun a t => s.traversalBody M v cF mCF t a) m).maxTorque
      = (ts.map (stepLoads M s v cF mCF)).foldl (fun acc l => ld.max acc l.torque)
          m.maxTorque := by
  induction ts generalizing m with
  | nil => rfl
  | cons t ts ih =>
    rw [List.foldl_cons, ih, List.map_cons, List.foldl_cons]
    rfl

/-- The force component of the folded body is the running maximum of
`max(frontForce, rearForce)`. -/
theorem foldl_body_maxForce (M : CMath) (s : SafeSpeedCalculator) (v cF mCF : ld)
    (ts : List ld) (m : Maxima) :
    (ts.foldl (fun a t => s.traversalBody M v cF mCF t a) m).maxForce
      = (ts.map (stepLoads M s v cF mCF)).foldl
          (fun acc l => ld.max acc (ld.max l.frontForce l.rearForce)) m.maxForce := by
  induction ts generalizing m with
  | nil => rfl
  | cons t ts ih =>
    rw [List.foldl_cons, ih, List.map_cons, List.foldl_cons]
    rfl

/-- The object after `checkMaximumLimits` is the object with the geometry of the
model in `theta` and `alpha`. -/
theorem checkMaximumLimits_obj (M : CMath) (s : SafeSpeedCalculator) (v : ld) :
    (s.checkMaximumLimits M v).2 = withGeometry M s := rfl

/-- The verdict of `checkMaximumLimits` in the words of the specification. -/
theorem checkMaximumLimits_verdict (M : CMath) (s : SafeSpeedCalculator) (v : ld) :
    (s.checkMaximumLimits M v).1
      = (ld.ge (maxTorque M (withGeometry M s) v) (weightTorque M (withGeometry M s))
          || ld.ge (maxForce M (withGeometry M s) v) (frictionLimit (withGeometry M s))) := by
  unfold checkMaximumLimits maxTorque maxForce simulatedLoads traversalTimes
  simp only
  rw [traversalLoop_eq_foldl _ _ _ _ _ _ _ rfl, foldl_body_maxTorque, foldl_body_maxForce]
  rfl

/-- The outcome of `checkMaximumLimits` is the same for two objects with the
same model. -/
theorem checkMaximumLimits_congr (M : CMath) (s s2 : SafeSpeedCalculator) (v : ld)
    (h : s.params = s2.params) : s.checkMaximumLimits M v = s2.checkMaximumLimits M v := by
  cases s
  cases s2
  simp only at h
  subst h
  rfl

/-- The method `checkMaximumLimits` leaves the model as it was. -/
theorem checkMaximumLimits_params (M : CMath) (s : SafeSpeedCalculator) (v : ld) :
    (s.checkMaximumLimits M v).2.params = s.params := rfl

/-- Any run of calls of `checkMaximumLimits` leaves the model as it was. -/
theorem foldl_checkMaximumLimits_params (M : CMath) (ws : List ld) (s : SafeSpeedCalculator) :
    (ws.foldl (fun obj w => (obj.checkMaximumLimits M w).2) s).params = s.params := by
  induction ws generalizing s with
  | nil => rfl
  | cons w ws ih => rw [List.foldl_cons, ih, checkMaximumLimits_params]

/-- No step is simulated when the loop condition fails at `time = 0`. -/
theorem traversalTimes_of_not_lt (M : CMath) (timeMax : ld) (h : ld.lt 0 timeMax = false) :
    traversalTimes M timeMax = [] := by
  rw [traversalTimes, traversalTimesFrom, dif_neg]
  rw [h]
  exact Bool.false_ne_true

/-- What `checkMaximumLimits` does when the ratio `wheelbase / (2 curveRadius)`
is above `1`: the inverse sine is NaN, so are `theta`, `alpha`, `timeMax` and
`weightTorque`, no step is simulated, and the verdict is `0 >= frictionLimit`. -/
theorem checkMaximumLimits_of_ratio_gt_one (M : CMath) (s : SafeSpeedCalculator) (v : ld)
    (h : ld.lt 1 (s.params.wheelbase / (2 * s.params.curveRadius)) = true) :
    (withGeometry M s).theta = ld.nan ∧ (withGeometry M s).alpha = ld.nan ∧
      timeMax M (withGeometry M s) v = ld.nan ∧
      traversalTimes M (timeMax M (withGeometry M s) v) = [] ∧
      (s.checkMaximumLimits M v).1
        = ld.ge 0 (s.params.mass * GRAVITY * s.params.frictionCoeff) := by
  have hθ : tireAngle M s.params = ld.nan := by
    rw [tireAngle, ld.asin_of_gt_one M _ h]
    rfl
  have hα : supportAngle M s.params = ld.nan := by
    rw [supportAngle, hθ]
    simp
  have ht : timeMax M (withGeometry M s) v = ld.nan := by
    simp [timeMax, withGeometry, hθ]
  have hts : traversalTimes M (timeMax M (withGeometry M s) v) = [] :=
    traversalTimes_of_not_lt M _ (by rw [ht]; simp)
  refine ⟨hθ, hα, ht, hts, ?_⟩
  rw [checkMaximumLimits_verdict]
  have hT : maxTorque M (withGeometry M s) v = 0 := by
    simp [maxTorque, simulatedLoads, hts]
  have hF : maxForce M (withGeometry M s) v = 0 := by
    simp [maxForce, simulatedLoads, hts]
  have hw : weightTorque M (withGeometry M s) = ld.nan := by
    simp [weightTorque, withGeometry, hθ]
  rw [hT, hF, hw]
  simp [frictionLimit, withGeometry]

/-- The times of the traversal loop do not depend on how `0 <= time` was shown. -/
theorem traversalTimesFrom_congr (M : CMath) (timeMax : ld) {t t2 : ld} (e : t = t2)
    (h : ld.le 0 t = true) (h2 : ld.le 0 t2 = true) :
    traversalTimesFrom M timeMax t h = traversalTimesFrom M timeMax t2 h2 := by
  subst e
  rfl

/-- The update `time += timeStep` on finite values. -/
theorem nextTime_fin (M : CMath) (q t : ℚ) :
    nextTime M (ld.fin q) (ld.fin t) = ld.fin (M.fl (t + M.fl (q / 10000))) := by
  simp only [nextTime, timeStep, ld.ofNat_def, ld.div_def, ld.div]
  rw [if_pos (by norm_num)]
  rfl

/-- With a finite `timeMax = q`, the loop entered after `j` updates, when its
test holds for the next `n` values of `time` and fails for the one after, runs its
body at exactly those `n` values. -/
theorem traversalTimesFrom_timeAt (M : CMath) (q : ℚ) :
    ∀ (n j : ℕ) (h : ld.le 0 (ld.fin (timeAt M q j)) = true),
      (∀ k : ℕ, j ≤ k → k < j + n → timeAt M q k < q) → ¬ timeAt M q (j + n) < q →
      traversalTimesFrom M (ld.fin q) (ld.fin (timeAt M q j)) h
        = (List.range' j n).map (fun k : ℕ => ld.fin (timeAt M q k)) := by
  intro n
  induction n with
  | zero =>
    intro j h _ hstop
    rw [traversalTimesFrom, dif_neg]
    · rfl
    · simpa [ld.lt] using hstop
  | succ n ih =>
    intro j h hrun hstop
    have hlt : ld.lt (ld.fin (timeAt M q j)) (ld.fin q) = true := by
      simpa [ld.lt] using hrun j (le_refl j) (by omega)
    have e : nextTime M (ld.fin q) (ld.fin (timeAt M q j)) = ld.fin (timeAt M q (j + 1)) :=
      nextTime_fin M q _
    have h3 : ld.le 0 (ld.fin (timeAt M q (j + 1))) = true :=
      e ▸ traversal_step_nonneg M _ _ h hlt
    rw [traversalTimesFrom, dif_pos hlt, traversalTimesFrom_congr M (ld.fin q) e _ h3,
      ih (j + 1) h3 (fun k h1 h2 => hrun k (by omega) (by omega))
        (by rw [show j + 1 + n = j + (n + 1) by omega]; exact hstop),
      List.range'_succ, List.map_cons]

/-- With a finite `timeMax = q`, when the test holds for the first `n` values of
`time` and fails for the next, the simulated steps are those `n` values. -/
theorem traversalTimes_timeAt (M : CMath) (q : ℚ) (n : ℕ)
    (hrun : ∀ k : ℕ, k < n → timeAt M q k < q) (hstop : ¬ timeAt M q n < q) :
    traversalTimes M (ld.fin q) = (List.range n).map (fun k : ℕ => ld.fin (timeAt M q k)) := by
  have h0 : ld.le 0 (ld.fin (timeAt M q 0)) = true := by
    simp [timeAt, ld.ofNat_def, ld.le]
  have e : (0 : ld) = ld.fin (timeAt M q 0) := rfl
  rw [traversalTimes, traversalTimesFrom_congr M (ld.fin q) e _ h0,
    traversalTimesFrom_timeAt M q n 0 h0 (fun k _ h2 => hrun k (by omega))
      (by rw [Nat.zero_add]; exact hstop),
    List.range_eq_range']

/-- The accumulated rounding error: for `k` up to `10001`, the value of `time`
after `k` updates is within the relative distance `2 ^ -39` of the `k`-th multiple
of the exact step `q / 10000`. -/
theorem timeAt_bounds (M : CMath) (q : ℚ) (hq : 0 < q) :
    ∀ k : ℕ, k ≤ 10001 →
      (k : ℚ) * (q / 10000) - (k : ℚ) * (q / 10000) / 2 ^ 39 ≤ timeAt M q k ∧
      timeAt M q k ≤ (k : ℚ) * (q / 10000) + (k : ℚ) * (q / 10000) / 2 ^ 39 := by
  intro k
  induction k with
  | zero =>
    intro _
    simp [timeAt]
  | succ k ih =>
    intro hk
    obtain ⟨hlo, hhi⟩ := ih (by omega)
    have hd : 0 < q / 10000 := by positivity
    have hk2 : (k : ℚ) ≤ 10000 := by
      have : k ≤ 10000 := by omega
      exact_mod_cast this
    have hK0 : 0 ≤ (k : ℚ) * (q / 10000) := by positivity
    have hK : (k : ℚ) * (q / 10000) ≤ 10000 * (q / 10000) :=
      mul_le_mul_of_nonneg_right hk2 hd.le
    have hs1 := M.fl_lower (q / 10000) hd.le
    have hs2 := M.fl_upper (q / 10000) hd.le
    have hs0 := M.fl_step_pos q hq
    have ht0 : 0 ≤ timeAt M q k := by
      have : (k : ℚ) * (q / 10000) / 2 ^ 39 ≤ (k : ℚ) * (q / 10000) :=
        div_le_self hK0 (by norm_num)
      linarith
    have hx1 := M.fl_lower (timeAt M q k + M.fl (q / 10000)) (by linarith)
    have hx2 := M.fl_upper (timeAt M q k + M.fl (q / 10000)) (by linarith)
    have e : ((k + 1 : ℕ) : ℚ) * (q / 10000) = (k : ℚ) * (q / 10000) + q / 10000 := by
      push_cast
      ring
    rw [e]
    change _ ≤ M.fl (timeAt M q k + M.fl (q / 10000)) ∧
      M.fl (timeAt M q k + M.fl (q / 10000)) ≤ _
    generalize M.fl (timeAt M q k + M.fl (q / 10000)) = y at hx1 hx2 ⊢
    generalize M.fl (q / 10000) = s at hs1 hs2 hs0 hx1 hx2
    generalize timeAt M q k = t at hlo hhi ht0 hx1 hx2
    generalize (k : ℚ) * (q / 10000) = K at hlo hhi hK0 hK
    generalize q / 10000 = d at hd hK hs1 hs2 ⊢
    norm_num at hlo hhi hs1 hs2 hx1 hx2 ⊢
    constructor <;> linarith

/-- The values of `time` are not negative. -/
theorem timeAt_nonneg (M : CMath) (q : ℚ) (hq : 0 < q) (k : ℕ) (hk : k ≤ 10001) :
    0 ≤ timeAt M q k := by
  have h := (timeAt_bounds M q hq k hk).1
  have hK0 : 0 ≤ (k : ℚ) * (q / 10000) := by positivity
  have : (k : ℚ) * (q / 10000) / 2 ^ 39 ≤ (k : ℚ) * (q / 10000) :=
    div_le_self hK0 (by norm_num)
  linarith

/-- The test `time < timeMax` holds for the first `10000` values of `time`. -/
theorem timeAt_lt (M : CMath) (q : ℚ) (hq : 0 < q) (k : ℕ) (hk : k < 10000) :
    timeAt M q k < q := by
  have h := (timeAt_bounds M q hq k (by omega)).2
  have hd : 0 < q / 10000 := by positivity
  have hk2 : (k : ℚ) ≤ 9999 := by
    have : k ≤ 9999 := by omega
    exact_mod_cast this
  have hK : (k : ℚ) * (q / 10000) ≤ 9999 * (q / 10000) :=
    mul_le_mul_of_nonneg_right hk2 hd.le
  generalize (k : ℚ) * (q / 10000) = K at h hK
  norm_num at h
  linarith

/-- The test `time < timeMax` fails for the value of `time` after `10001`
updates, if not before. -/
theorem timeAt_stop (M : CMath) (q : ℚ) (hq : 0 < q) : ¬ timeAt M q 10001 < q := by
  have h := (timeAt_bounds M q hq 10001 (le_refl _)).1
  norm_num at h
  linarith

/-- With a finite `timeMax = q > 0` the loop runs its body `10000` or `10001`
times, at the values `time` takes under the rounded updates: its test holds for
the first `n` of them and fails for the next. -/
theorem traversalTimes_count (M : CMath) (q : ℚ) (hq : 0 < q) :
    ∃ n : ℕ, (n = 10000 ∨ n = 10001) ∧ (∀ k : ℕ, k < n → timeAt M q k < q) ∧
      ¬ timeAt M q n < q ∧
      traversalTimes M (ld.fin q) = (List.range n).map (fun k : ℕ => ld.fin (timeAt M q k)) := by
  by_cases h : timeAt M q 10000 < q
  · have hrun : ∀ k : ℕ, k < 10001 → timeAt M q k < q := by
      intro k hk
      by_cases hk2 : k < 10000
      · exact timeAt_lt M q hq k hk2
      · have : k = 10000 := by omega
        rw [this]
        exact h
    exact ⟨10001, Or.inr rfl, hrun, timeAt_stop M q hq,
      traversalTimes_timeAt M q 10001 hrun (timeAt_stop M q hq)⟩
  · exact ⟨10000, Or.inl rfl, timeAt_lt M q hq, h,
      traversalTimes_timeAt M q 10000 (timeAt_lt M q hq) h⟩

/-- In exact arithmetic the value of `time` after `k` updates is the `k`-th
multiple of the step. -/
theorem timeAt_exact (M : CMath) (hfl : ∀ x : ℚ, M.fl x = x) (q : ℚ) (k : ℕ) :
    timeAt M q k = (k : ℚ) * (q / 10000) := by
  induction k with
  | zero => simp [timeAt]
  | succ k ih =>
    rw [timeAt, hfl, hfl, ih]
    push_cast
    ring

/-- In exact arithmetic, with a finite `timeMax = q > 0`, the simulated steps are
the `10000` times `k * (q / 10000)`, `k = 0, ..., 9999`. -/
theorem traversalTimes_finite (M : CMath) (hfl : ∀ x : ℚ, M.fl x = x) (q : ℚ) (hq : 0 < q) :
    traversalTimes M (ld.fin q)
      = (List.range 10000).map (fun k : ℕ => ld.fin ((k : ℚ) * (q / 10000))) := by
  rw [traversalTimes_timeAt M q 10000 (timeAt_lt M q hq)]
  · exact List.map_congr_left (fun k _ => by rw [timeAt_exact M hfl])
  · rw [timeAt_exact M hfl]
    push_cast
    linarith

/-- On a platform that never rounds a positive value up and rounds the step
`q / 10000` down, the value of `time` after `10000` updates is still below
`timeMax = q`: the loop makes a `10001`-st pass. -/
theorem timeAt_of_round_down (M : CMath) (q : ℚ) (hq : 0 < q)
    (hdown : ∀ x : ℚ, 0 ≤ x → M.fl x ≤ x) (hstep : M.fl (q / 10000) < q / 10000) :
    timeAt M q 10000 < q := by
  have h : ∀ k : ℕ, k ≤ 10000 → timeAt M q k ≤ (k : ℚ) * M.fl (q / 10000) := by
    intro k
    induction k with
    | zero => intro _; simp [timeAt]
    | succ k ih =>
      intro hk
      have h1 := ih (by omega)
      have h0 := timeAt_nonneg M q hq k (by omega)
      have hs0 := M.fl_step_pos q hq
      have h2 := hdown (timeAt M q k + M.fl (q / 10000)) (by linarith)
      rw [timeAt]
      push_cast
      linarith
  have h1 := h 10000 (le_refl _)
  push_cast at h1
  linarith

/-- With `timeMax = +inf` (a positive numerator over the velocity `0`) the body
is run once, at `time = 0`: the step is `+inf` and `inf < inf` is false. -/
theorem traversalTimes_pinf (M : CMath) : traversalTimes M ld.pinf = [0] := by
  rw [traversalTimes, traversalTimesFrom, dif_pos (by decide), traversalTimesFrom, dif_neg]
  simp [nextTime, timeStep, ld.round, ld.ofNat_def, ld.add_def, ld.div_def, ld.div, ld.add,
    ld.lt]

/-- At the default model with `curveRadius = 4` the ratio
`wheelbase / (2 curveRadius)` is `9/8`, above `1`. -/
theorem tight_radius_ratio :
    ld.lt 1 ((setRadius (initial flatMath) (ld.fin 4)).params.wheelbase
        / (2 * (setRadius (initial flatMath) (ld.fin 4)).params.curveRadius)) = true := by
  simp [setRadius, initial, VehicleParameters.default, ld.ofNat_def, ld.div_def, ld.mul_def,
    ld.div, ld.mul, ld.lt]
  norm_num

/-- At the default model the friction limit is positive, so `0 >= frictionLimit`
is false. -/
theorem tight_radius_friction :
    ld.ge 0 ((setRadius (initial flatMath) (ld.fin 4)).params.mass * GRAVITY
        * (setRadius (initial flatMath) (ld.fin 4)).params.frictionCoeff) = false := by
  simp [setRadius, initial, VehicleParameters.default, GRAVITY, ld.ofNat_def, ld.mul_def,
    ld.mul, ld.ge, ld.le]

/-! ## The evaluator: verdict, hidden state, out-of-domain geometry -/

/-- C4. The verdict of `checkMaximumLimits(velocity)` is true if and only if
`maxTorque >= weightTorque` or `maxForce >= frictionLimit`, where `maxTorque` and
`maxForce` are the maxima, starting from `0`, over all simulated steps of the
torque and of `max(frontForce, rearForce)`, `weightTorque` is
`mass * GRAVITY * (width + wheelWidth * cos(theta)) / 2` and `frictionLimit` is
`mass * GRAVITY * frictionCoeff`; so either failure mode alone makes the verdict
true.  The simulated steps are the passes the loop of the method makes: the
loads of the body at each value that `time` takes, under the rounded updates
`time += timeStep`, while `time < timeMax` holds, however many these are. -/
theorem verdict_iff_limit_reached (M : CMath) (s : SafeSpeedCalculator) (v : ld) :
    ((s.checkMaximumLimits M v).1 = true ↔
        ld.ge (maxTorque M (withGeometry M s) v) (weightTorque M (withGeometry M s)) = true ∨
        ld.ge (maxForce M (withGeometry M s) v) (frictionLimit (withGeometry M s)) = true) ∧
      maxTorque M (withGeometry M s) v
        = ((simulatedLoads M (withGeometry M s) v).map (fun l => l.torque)).foldl ld.max 0 ∧
      maxForce M (withGeometry M s) v
        = ((simulatedLoads M (withGeometry M s) v).map
            (fun l => ld.max l.frontForce l.rearForce)).foldl ld.max 0 ∧
      simulatedLoads M (withGeometry M s) v
        = (traversalLoop M (fun time passes => passes ++ [time])
            ((s.params.curveRadius * (ld.fin M.M_PI / 2 - tireAngle M s.params)) / v) 0
            (by decide) []).map
          (fun time => stepLoads M (withGeometry M s) v
            ((withGeometry M s).calculateCentripetalForce v)
            ((withGeometry M s).calculateModifiedCentripetalForce M
              ((withGeometry M s).calculateCentripetalForce v)) time) ∧
      maxTorque M (withGeometry M s) v = (finalMaxima M s v).maxTorque ∧
      maxForce M (withGeometry M s) v = (finalMaxima M s v).maxForce ∧
      weightTorque M (withGeometry M s)
        = (s.params.mass * GRAVITY
            * (s.params.width + s.params.wheelWidth * ld.cos M (tireAngle M s.params))) / 2 ∧
      frictionLimit (withGeometry M s) = s.params.mass * GRAVITY * s.params.frictionCoeff := by
  refine ⟨?_, ?_, ?_, ?_, ?_, ?_, rfl, rfl⟩
  · rw [checkMaximumLimits_verdict, Bool.or_eq_true]
  · rw [maxTorque, List.foldl_map]
  · rw [maxForce, List.foldl_map]
  · rw [traversalLoop_trace]
    rfl
  · unfold finalMaxima maxTorque simulatedLoads traversalTimes
    rw [traversalLoop_eq_foldl _ _ _ _ _ _ _ rfl, foldl_body_maxTorque]
  · unfold finalMaxima maxForce simulatedLoads traversalTimes
    rw [traversalLoop_eq_foldl _ _ _ _ _ _ _ rfl, foldl_body_maxForce]

/-- C9. No hidden state: the outcome of `checkMaximumLimits` (the verdict, and the
object after the call) is the same whatever the member fields `theta` and `alpha`
held before the call, so it depends only on the model and the velocity; and a
call repeated after any sequence `ws` of other evaluations on the same object
returns the verdict of the first call. -/
theorem verdict_has_no_hidden_state (M : CMath) (p : VehicleParameters)
    (θ α θ2 α2 v : ld) (ws : List ld) :
    checkMaximumLimits M { params := p, theta := θ, alpha := α } v
        = checkMaximumLimits M { params := p, theta := θ2, alpha := α2 } v ∧
      (checkMaximumLimits M
          (ws.foldl (fun obj w => (obj.checkMaximumLimits M w).2)
            (checkMaximumLimits M { params := p, theta := θ, alpha := α } v).2) v).1
        = (checkMaximumLimits M { params := p, theta := θ, alpha := α } v).1 := by
  refine ⟨checkMaximumLimits_congr M _ _ v rfl, ?_⟩
  rw [checkMaximumLimits_congr M _ { params := p, theta := θ, alpha := α } v]
  rw [foldl_checkMaximumLimits_params, checkMaximumLimits_params]

/-- C10, as the claim states it, fails: for the default model at
`curveRadius = 4`, where `wheelbase / (2 curveRadius) = 9/8 > 1`, the call
`checkMaximumLimits(10)` raises no error: it returns the verdict `false`
("stable"), with NaN left in `theta` and `alpha`. -/
theorem tight_radius_returns_verdict :
    ld.lt 1 ((setRadius (initial flatMath) (ld.fin 4)).params.wheelbase
        / (2 * (setRadius (initial flatMath) (ld.fin 4)).params.curveRadius)) = true ∧
      (setRadius (initial flatMath) (ld.fin 4)).checkMaximumLimits flatMath (ld.fin 10)
        = (false, { params := (setRadius (initial flatMath) (ld.fin 4)).params,
                    theta := ld.nan, alpha := ld.nan }) := by
  have h := tight_radius_ratio
  obtain ⟨h1, h2, _, _, h5⟩ :=
    checkMaximumLimits_of_ratio_gt_one flatMath (setRadius (initial flatMath) (ld.fin 4))
      (ld.fin 10) h
  refine ⟨h, Prod.ext ?_ ?_⟩
  · rw [h5]
    exact tight_radius_friction
  · rw [checkMaximumLimits_obj]
    simp only [withGeometry] at h1 h2 ⊢
    rw [h1, h2]

/-- C10, amended. For every model with `wheelbase / (2 * curveRadius) > 1` and
every velocity, `checkMaximumLimits` raises no error and returns a verdict
computed from the NaN of the out-of-domain inverse sine: `theta` and `alpha` are
NaN after the call, no step of the traversal is simulated, and the verdict is
`0 >= mass * GRAVITY * frictionCoeff`. -/
theorem tight_radius_verdict_from_nan (M : CMath) (s : SafeSpeedCalculator) (v : ld)
    (h : ld.lt 1 (s.params.wheelbase / (2 * s.params.curveRadius)) = true) :
    (s.checkMaximumLimits M v).2.theta = ld.nan ∧
      (s.checkMaximumLimits M v).2.alpha = ld.nan ∧
      traversalTimes M (timeMax M (s.checkMaximumLimits M v).2 v) = [] ∧
      (s.checkMaximumLimits M v).1
        = ld.ge 0 (s.params.mass * GRAVITY * s.params.frictionCoeff) := by
  obtain ⟨h1, h2, _, h4, h5⟩ := checkMaximumLimits_of_ratio_gt_one M s v h
  rw [checkMaximumLimits_obj]
  exact ⟨h1, h2, h4, h5⟩

/-- C10 amended, at the default model with `curveRadius = 4` and velocity `10`. -/
theorem tight_radius_verdict_from_nan_witness :
    ld.lt 1 ((setRadius (initial flatMath) (ld.fin 4)).params.wheelbase
        / (2 * (setRadius (initial flatMath) (ld.fin 4)).params.curveRadius)) = true ∧
      ((setRadius (initial flatMath) (ld.fin 4)).checkMaximumLimits flatMath
          (ld.fin 10)).2.theta = ld.nan ∧
      ((setRadius (initial flatMath) (ld.fin 4)).checkMaximumLimits flatMath
          (ld.fin 10)).1
        = ld.ge 0 ((setRadius (initial flatMath) (ld.fin 4)).params.mass * GRAVITY
            * (setRadius (initial flatMath) (ld.fin 4)).params.frictionCoeff) :=
  ⟨tight_radius_ratio,
    (tight_radius_verdict_from_nan flatMath (setRadius (initial flatMath) (ld.fin 4))
      (ld.fin 10) tight_radius_ratio).1,
    (tight_radius_verdict_from_nan flatMath (setRadius (initial flatMath) (ld.fin 4))
      (ld.fin 10) tight_radius_ratio).2.2.2⟩

end SafeSpeedCalculator

/-! ## The search of the program is the search over its verdict -/

namespace MaxSafeSpeedSearch

/-- Two evaluators that give the same verdicts on related objects, and keep the
objects related, lead the search to the same result. -/
theorem search_simulation {σ τ : Type} (check : σ → ℚ → Bool × σ) (check2 : τ → ℚ → Bool × τ)
    (R : σ → τ → Prop)
    (hR : ∀ o o2 v, R o o2 →
      (check o v).1 = (check2 o2 v).1 ∧ R (check o v).2 (check2 o2 v).2)
    (obj : σ) (obj2 : τ) (h0 : R obj obj2) :
    (calculateMaximumSafeSpeed check obj).1 = (calculateMaximumSafeSpeed check2 obj2).1 := by
  have hstep : ∀ (s : SearchState σ) (s2 : SearchState τ),
      s.left = s2.left ∧ s.right = s2.right ∧ R s.obj s2.obj →
      (bisectionStep check s).left = (bisectionStep check2 s2).left ∧
        (bisectionStep check s).right = (bisectionStep check2 s2).right ∧
        R (bisectionStep check s).obj (bisectionStep check2 s2).obj := by
    intro s s2 ⟨hl, hr, ho⟩
    obtain ⟨hv, ho2⟩ := hR s.obj s2.obj ((s.left + s.right) / 2) ho
    have hm : (s2.left + s2.right) / 2 = (s.left + s.right) / 2 := by rw [hl, hr]
    have hobj := bisectionStep_obj check s
    have hobj2 := bisectionStep_obj check2 s2
    rw [hm] at hobj2
    rw [hobj, hobj2]
    rcases bisectionStep_cases check s with ⟨hc, l1, r1⟩ | ⟨hc, l1, r1⟩ <;>
      rcases bisectionStep_cases check2 s2 with ⟨hc2, l2, r2⟩ | ⟨hc2, l2, r2⟩ <;>
      rw [hm] at hc2 <;> rw [hv, hc2] at hc
    · exact ⟨by rw [l1, l2, hl], by rw [r1, r2, hm], ho2⟩
    · exact absurd hc (by simp)
    · exact absurd hc (by simp)
    · exact ⟨by rw [l1, l2, hm], by rw [r1, r2, hr], ho2⟩
  have hiter : ∀ k : ℕ,
      ((bisectionStep check)^[k] (initialState obj)).left
          = ((bisectionStep check2)^[k] (initialState obj2)).left ∧
        ((bisectionStep check)^[k] (initialState obj)).right
          = ((bisectionStep check2)^[k] (initialState obj2)).right ∧
        R ((bisectionStep check)^[k] (initialState obj)).obj
          ((bisectionStep check2)^[k] (initialState obj2)).obj := by
    intro k
    induction k with
    | zero => exact ⟨rfl, rfl, h0⟩
    | succ k ih =>
      rw [Function.iterate_succ_apply', Function.iterate_succ_apply']
      exact hstep _ _ ih
  obtain ⟨hl, _, ho⟩ := hiter 44
  rw [result_eq, result_eq, loop_initial, loop_initial, ← hl, (hR _ _ _ ho).1]

end MaxSafeSpeedSearch

namespace SafeSpeedCalculator

/-- The speed the program's `calculateMaximumSafeSpeed` returns is the one the
search returns over the verdict of `checkMaximumLimits` on the model, as a
predicate of the speed. -/
theorem calculateMaximumSafeSpeed_eq_pure (M : CMath) (s : SafeSpeedCalculator) :
    (s.calculateMaximumSafeSpeed M).1
      = (MaxSafeSpeedSearch.calculateMaximumSafeSpeed
          (pureCheck (fun v => (s.checkMaximumLimits M (ld.fin v)).1)) ()).1 := by
  unfold calculateMaximumSafeSpeed
  refine MaxSafeSpeedSearch.search_simulation _ _ (fun o _ => o.params = s.params) ?_ s () rfl
  intro o _ v ho
  exact ⟨congrArg Prod.fst (checkMaximumLimits_congr M o s (ld.fin v) ho), ho⟩

end SafeSpeedCalculator

/-! ## The trace of the search: loop invariant and speeds evaluated -/

namespace MaxSafeSpeedSearch

variable {σ : Type}

theorem stateAfter_succ (check : σ → ℚ → Bool × σ) (obj : σ) (k : ℕ) :
    stateAfter check obj (k + 1) = bisectionStep check (stateAfter check obj k) := by
  unfold stateAfter
  rw [Function.iterate_succ_apply']

/-- What a pass does to the bounds, by the verdict it gets. -/
theorem stateAfter_succ_cases (check : σ → ℚ → Bool × σ) (obj : σ) (k : ℕ) :
    (verdictAt check obj k = true ∧
        (stateAfter check obj (k + 1)).left = (stateAfter check obj k).left ∧
        (stateAfter check obj (k + 1)).right = midpointAt check obj k) ∨
      (verdictAt check obj k = false ∧
        (stateAfter check obj (k + 1)).left = midpointAt check obj k ∧
        (stateAfter check obj (k + 1)).right = (stateAfter check obj k).right) := by
  rw [stateAfter_succ]
  exact bisectionStep_cases check (stateAfter check obj k)

/-- The bounds after `k` passes. -/
theorem stateAfter_bounds (check : σ → ℚ → Bool × σ) (obj : σ) (k : ℕ) :
    0 ≤ (stateAfter check obj k).left ∧
      (stateAfter check obj k).left < (stateAfter check obj k).right ∧
      (stateAfter check obj k).right ≤ 10000 :=
  iterate_preserves check _ (bounds_preserved check) _ (by simp [initialState]) k

/-- The bound `left` never decreases. -/
theorem stateAfter_left_mono (check : σ → ℚ → Bool × σ) (obj : σ) (j k : ℕ) (h : j ≤ k) :
    (stateAfter check obj j).left ≤ (stateAfter check obj k).left := by
  induction k with
  | zero =>
    have : j = 0 := by omega
    rw [this]
  | succ k ih =>
    rcases Nat.lt_or_ge j (k + 1) with hlt | hge
    · have h1 := ih (by omega)
      have hb := stateAfter_bounds check obj k
      rcases stateAfter_succ_cases check obj k with ⟨_, hl, _⟩ | ⟨_, hl, _⟩
      · rw [hl]
        exact h1
      · rw [hl]
        unfold midpointAt
        linarith [hb.2.1]
    · have : j = k + 1 := by omega
      rw [this]

/-- Every speed evaluated in the loop lies strictly between `0` and `10000`. -/
theorem midpointAt_range (check : σ → ℚ → Bool × σ) (obj : σ) (k : ℕ) :
    0 < midpointAt check obj k ∧ midpointAt check obj k < 10000 := by
  have hb := stateAfter_bounds check obj k
  unfold midpointAt
  constructor <;> linarith [hb.1, hb.2.1, hb.2.2]

/-- The loop ends in the state after 44 passes. -/
theorem loop_eq_stateAfter (check : σ → ℚ → Bool × σ) (obj : σ) :
    bisectionLoop check (initialState obj) = stateAfter check obj 44 :=
  loop_initial check obj

/-- The bound `left` is still `0` after `k` passes exactly when each of them
found its midpoint to exceed the limits. -/
theorem left_zero_iff (check : σ → ℚ → Bool × σ) (obj : σ) (k : ℕ) :
    (stateAfter check obj k).left = 0 ↔ ∀ j, j < k → verdictAt check obj j = true := by
  constructor
  · intro h j hj
    cases hv : verdictAt check obj j
    · exfalso
      rcases stateAfter_succ_cases check obj j with ⟨hc, _, _⟩ | ⟨_, hl, _⟩
      · rw [hv] at hc
        exact Bool.false_ne_true hc
      · have h1 := stateAfter_left_mono check obj (j + 1) k (by omega)
        have h2 := (midpointAt_range check obj j).1
        rw [hl, h] at h1
        linarith
    · rfl
  · intro h
    induction k with
    | zero => rfl
    | succ k ih =>
      have h0 := ih (fun j hj => h j (by omega))
      rcases stateAfter_succ_cases check obj k with ⟨_, hl, _⟩ | ⟨hc, _, _⟩
      · rw [hl, h0]
      · rw [h k (by omega)] at hc
        exact absurd hc (by simp)

/-- The origin of the two bounds after `k` passes: `left` is `0` or a midpoint
found stable, `right` is `10000` or a midpoint found to exceed the limits. -/
theorem stateAfter_origin (check : σ → ℚ → Bool × σ) (obj : σ) (k : ℕ) :
    ((stateAfter check obj k).left = 0 ∨
        ∃ j, j < k ∧ (stateAfter check obj k).left = midpointAt check obj j ∧
          verdictAt check obj j = false) ∧
      ((stateAfter check obj k).right = 10000 ∨
        ∃ j, j < k ∧ (stateAfter check obj k).right = midpointAt check obj j ∧
          verdictAt check obj j = true) := by
  induction k with
  | zero => exact ⟨Or.inl rfl, Or.inl rfl⟩
  | succ k ih =>
    obtain ⟨hl0, hr0⟩ := ih
    rcases stateAfter_succ_cases check obj k with ⟨hv, hl, hr⟩ | ⟨hv, hl, hr⟩
    · refine ⟨?_, Or.inr ⟨k, by omega, hr, hv⟩⟩
      rw [hl]
      rcases hl0 with h | ⟨j, hj, h1, h2⟩
      · exact Or.inl h
      · exact Or.inr ⟨j, by omega, h1, h2⟩
    · refine ⟨Or.inr ⟨k, by omega, hl, hv⟩, ?_⟩
      rw [hr]
      rcases hr0 with h | ⟨j, hj, h1, h2⟩
      · exact Or.inl h
      · exact Or.inr ⟨j, by omega, h1, h2⟩

/-- A property of the object that every evaluation keeps holds of the object
that `calculateMaximumSafeSpeed` leaves. -/
theorem search_preserves (check : σ → ℚ → Bool × σ) (P : σ → Prop)
    (hP : ∀ o v, P o → P (check o v).2) (obj : σ) (h : P obj) :
    P (calculateMaximumSafeSpeed check obj).2 := by
  have hloop : P (bisectionLoop check (initialState obj)).obj := by
    rw [loop_initial]
    refine iterate_preserves check (fun s => P s.obj) ?_ _ h 44
    intro s hs
    rw [bisectionStep_obj]
    exact hP _ _ hs
  exact hP _ _ hloop

/-- C14. Bisection loop invariant: after `k` iterations of the loop of
`calculateMaximumSafeSpeed`, `0 <= left < right <= 10000` and
`right - left = 10000 / 2 ^ k`; `left` is either `0` or a midpoint at which the
evaluator returned "stable", and `right` is either `10000` or a midpoint at which
the evaluator returned "exceeds limits". -/
theorem bisection_loop_invariant (check : σ → ℚ → Bool × σ) (obj : σ) (k : ℕ) :
    0 ≤ (stateAfter check obj k).left ∧
      (stateAfter check obj k).left < (stateAfter check obj k).right ∧
      (stateAfter check obj k).right ≤ 10000 ∧
      (stateAfter check obj k).right - (stateAfter check obj k).left = 10000 / 2 ^ k ∧
      ((stateAfter check obj k).left = 0 ∨
        ∃ j, j < k ∧ (stateAfter check obj k).left = midpointAt check obj j ∧
          verdictAt check obj j = false) ∧
      ((stateAfter check obj k).right = 10000 ∨
        ∃ j, j < k ∧ (stateAfter check obj k).right = midpointAt check obj j ∧
          verdictAt check obj j = true) ∧
      bisectionLoop check (initialState obj) = stateAfter check obj 44 := by
  have hb := stateAfter_bounds check obj k
  have ho := stateAfter_origin check obj k
  refine ⟨hb.1, hb.2.1, hb.2.2, ?_, ho.1, ho.2, loop_eq_stateAfter check obj⟩
  unfold stateAfter
  rw [iterate_width]
  simp [initialState]

end MaxSafeSpeedSearch

namespace SafeSpeedCalculator

/-- C13. Frame: `checkMaximumLimits` and `calculateMaximumSafeSpeed` leave every
field of the vehicle model (`params`) unchanged, and `setRadius(r)` sets
`curveRadius` to `r` and leaves every other field of the model unchanged. -/
theorem model_frame (M : CMath) (s : SafeSpeedCalculator) (v radius : ld) :
    (s.checkMaximumLimits M v).2.params = s.params ∧
      (s.calculateMaximumSafeSpeed M).2.params = s.params ∧
      (s.setRadius radius).params.curveRadius = radius ∧
      (s.setRadius radius).params.height = s.params.height ∧
      (s.setRadius radius).params.length = s.params.length ∧
      (s.setRadius radius).params.width = s.params.width ∧
      (s.setRadius radius).params.wheelbase = s.params.wheelbase ∧
      (s.setRadius radius).params.wheelWidth = s.params.wheelWidth ∧
      (s.setRadius radius).params.mass = s.params.mass ∧
      (s.setRadius radius).params.airPressure = s.params.airPressure ∧
      (s.setRadius radius).params.temperature = s.params.temperature ∧
      (s.setRadius radius).params.windVelocity = s.params.windVelocity ∧
      (s.setRadius radius).params.windAngle = s.params.windAngle ∧
      (s.setRadius radius).params.frictionCoeff = s.params.frictionCoeff := by
  refine ⟨rfl, ?_, rfl, rfl, rfl, rfl, rfl, rfl, rfl, rfl, rfl, rfl, rfl, rfl⟩
  exact MaxSafeSpeedSearch.search_preserves
    (fun obj velocity => obj.checkMaximumLimits M (ld.fin velocity))
    (fun o => o.params = s.params) (fun _ _ ho => ho)
    s rfl

end SafeSpeedCalculator

/-! ## Order on `ld` and the running maxima -/

namespace ld

theorem le_of_le_of_lt (a b c : ld) (h1 : le a b = true) (h2 : lt b c = true) :
    le a c = true := by
  cases a <;> cases b <;> cases c <;> simp [le, lt] at h1 h2 ⊢
  linarith

theorem le_trans (a b c : ld) (h1 : le a b = true) (h2 : le b c = true) :
    le a c = true := by
  cases a <;> cases b <;> cases c <;> simp [le] at h1 h2 ⊢
  linarith

/-- A value strictly below `b` is not at least `b`. -/
theorem ge_eq_false_of_lt (a b : ld) (h : lt a b = true) : ge a b = false := by
  cases a <;> cases b <;> simp [ge, le, lt] at h ⊢
  exact h

/-- The maximum with a value that is at least `0` is at least `0`. -/
theorem max_nonneg (a b : ld) (h : le 0 a = true) : le 0 (max a b) = true := by
  unfold max
  by_cases hlt : lt a b = true
  · rw [if_pos hlt]
    exact le_of_le_of_lt 0 a b h hlt
  · rw [if_neg hlt]
    exact h

/-- A running maximum started at a value that is at least `0` ends at least `0`. -/
theorem foldl_max_nonneg {β : Type} (f : β → ld) (l : List β) (a : ld) (h : le 0 a = true) :
    le 0 (l.foldl (fun acc x => max acc (f x)) a) = true := by
  induction l generalizing a with
  | nil => exact h
  | cons x l ih =>
    rw [List.foldl_cons]
    exact ih _ (max_nonneg a (f x) h)

/-- Dividing by zero never gives a finite value. -/
theorem div_zero_cases (a : ld) : a / 0 = pinf ∨ a / 0 = ninf ∨ a / 0 = nan := by
  cases a with
  | fin q =>
    simp only [ofNat_def, div_def, div]
    rw [if_neg (by simp)]
    by_cases h1 : 0 < q
    · simp [h1]
    · by_cases h2 : q < 0
      · simp [h1, h2]
      · simp [h1, h2]
  | pinf => left; simp [ofNat_def, div_def, div]
  | ninf => right; left; simp [ofNat_def, div_def, div]
  | nan => right; right; rfl

end ld

namespace SafeSpeedCalculator

/-- The verdict of `checkMaximumLimits` from the running maxima at the end of its
loop. -/
theorem checkMaximumLimits_finalMaxima (M : CMath) (s : SafeSpeedCalculator) (v : ld) :
    (s.checkMaximumLimits M v).1
      = (ld.ge (finalMaxima M s v).maxTorque (weightTorque M (withGeometry M s))
          || ld.ge (finalMaxima M s v).maxForce (frictionLimit (withGeometry M s))) := rfl

/-- The running maxima at the end of the loop are the maxima over the simulated
steps. -/
theorem finalMaxima_eq (M : CMath) (s : SafeSpeedCalculator) (v : ld) :
    (finalMaxima M s v).maxTorque = maxTorque M (withGeometry M s) v ∧
      (finalMaxima M s v).maxForce = maxForce M (withGeometry M s) v := by
  unfold finalMaxima maxTorque maxForce simulatedLoads traversalTimes
  rw [traversalLoop_eq_foldl _ _ _ _ _ _ _ rfl, foldl_body_maxTorque, foldl_body_maxForce]
  exact ⟨rfl, rfl⟩

/-- The running maxima at the end of the loop are at least `0`. -/
theorem finalMaxima_nonneg (M : CMath) (s : SafeSpeedCalculator) (v : ld) :
    ld.le 0 (finalMaxima M s v).maxTorque = true ∧
      ld.le 0 (finalMaxima M s v).maxForce = true := by
  rw [(finalMaxima_eq M s v).1, (finalMaxima_eq M s v).2]
  exact ⟨ld.foldl_max_nonneg _ _ 0 (by decide), ld.foldl_max_nonneg _ _ 0 (by decide)⟩

/-- With a threshold that is at most `0` the verdict is "exceeds limits" at every
velocity. -/
theorem verdict_of_limit_nonpos (M : CMath) (s : SafeSpeedCalculator)
    (h : ld.le (frictionLimit (withGeometry M s)) 0 = true ∨
      ld.le (weightTorque M (withGeometry M s)) 0 = true) (v : ld) :
    (s.checkMaximumLimits M v).1 = true := by
  rw [checkMaximumLimits_finalMaxima, Bool.or_eq_true]
  rcases h with h | h
  · right
    exact ld.le_trans _ 0 _ h (finalMaxima_nonneg M s v).2
  · left
    exact ld.le_trans _ 0 _ h (finalMaxima_nonneg M s v).1

/-- When the verdict is "exceeds limits" at every speed the search returns the
sentinel. -/
theorem search_of_always_exceeds (M : CMath) (s : SafeSpeedCalculator)
    (h : ∀ v, (s.checkMaximumLimits M v).1 = true) :
    (s.calculateMaximumSafeSpeed M).1 = -1 := by
  rw [calculateMaximumSafeSpeed_eq_pure, MaxSafeSpeedSearch.result_eq]
  rw [if_pos]
  exact h _

/-- The model without friction has the friction limit `0`. -/
theorem frictionless_limit :
    ld.le (frictionLimit (withGeometry flatMath (frictionless flatMath))) 0 = true := by
  simp [frictionLimit, withGeometry, frictionless, VehicleParameters.default, GRAVITY,
    ld.ofNat_def, ld.mul_def, ld.mul, ld.le]

/-- C17. The running maxima `maxForce` and `maxTorque` are at least `0` when the
loop of `checkMaximumLimits` ends, at every velocity (they start at `0` and a
step only replaces them by something larger); consequently, for every model with
`frictionLimit = mass * GRAVITY * frictionCoeff <= 0` or `weightTorque <= 0`, the
evaluator returns "exceeds limits" for every velocity and
`calculateMaximumSafeSpeed` returns the sentinel `-1`. -/
theorem maxima_nonneg_degenerate_limits (M : CMath) (s : SafeSpeedCalculator) :
    (∀ v, ld.le 0 (finalMaxima M s v).maxTorque = true ∧
        ld.le 0 (finalMaxima M s v).maxForce = true) ∧
      frictionLimit (withGeometry M s) = s.params.mass * GRAVITY * s.params.frictionCoeff ∧
      (ld.le (frictionLimit (withGeometry M s)) 0 = true ∨
          ld.le (weightTorque M (withGeometry M s)) 0 = true →
        (∀ v, (s.checkMaximumLimits M v).1 = true) ∧
          (s.calculateMaximumSafeSpeed M).1 = -1) := by
  refine ⟨finalMaxima_nonneg M s, rfl, fun h => ?_⟩
  exact ⟨verdict_of_limit_nonpos M s h,
    search_of_always_exceeds M s (verdict_of_limit_nonpos M s h)⟩

/-- C17, at the default model with `frictionCoeff = 0`. -/
theorem maxima_nonneg_degenerate_limits_witness :
    ld.le (frictionLimit (withGeometry flatMath (frictionless flatMath))) 0 = true ∧
      (∀ v, ((frictionless flatMath).checkMaximumLimits flatMath v).1 = true) ∧
      ((frictionless flatMath).calculateMaximumSafeSpeed flatMath).1 = -1 :=
  ⟨frictionless_limit,
    (maxima_nonneg_degenerate_limits flatMath (frictionless flatMath)).2.2
      (Or.inl frictionless_limit)⟩

end SafeSpeedCalculator

/-! ## The evaluator at speed zero -/

namespace ld

/-- A running maximum from `0` that only meets a value below a positive
threshold stays below it. -/
theorem ge_max_zero_eq_false (x w : ld) (hw : lt 0 w = true) (hx : lt x w = true) :
    ge (max 0 x) w = false := by
  unfold max
  by_cases h : lt 0 x = true
  · rw [if_pos h]
    exact ge_eq_false_of_lt x w hx
  · rw [if_neg h]
    exact ge_eq_false_of_lt 0 w hw

/-- The maximum of two values below `c` is below `c`. -/
theorem max_lt (a b c : ld) (ha : lt a c = true) (hb : lt b c = true) :
    lt (max a b) c = true := by
  unfold max
  by_cases h : lt a b = true
  · rw [if_pos h]
    exact hb
  · rw [if_neg h]
    exact ha

end ld

namespace SafeSpeedCalculator

/-- At velocity `0` the traversal time is a quotient by zero: the loop runs its
body once, at `time = 0` (the quotient is `+inf`), or not at all. -/
theorem traversalTimes_zero_velocity (M : CMath) (s : SafeSpeedCalculator) :
    traversalTimes M (timeMax M s 0) = [] ∨ traversalTimes M (timeMax M s 0) = [0] := by
  unfold timeMax
  rcases ld.div_zero_cases (s.params.curveRadius * (ld.fin M.M_PI / 2 - s.theta))
    with h | h | h <;> rw [h]
  · exact Or.inr (traversalTimes_pinf M)
  · exact Or.inl (traversalTimes_of_not_lt M _ (by decide))
  · exact Or.inl (traversalTimes_of_not_lt M _ (by decide))

/-- The centripetal force at velocity `0` on a model with a real mass and a real,
non-zero `curveRadius + width`. -/
theorem centripetalForce_zero (s : SafeSpeedCalculator) (m d : ℚ)
    (hm : s.params.mass = ld.fin m) (hd : s.params.curveRadius + s.params.width = ld.fin d)
    (hd0 : d ≠ 0) : s.calculateCentripetalForce 0 = 0 := by
  unfold calculateCentripetalForce
  rw [hm, hd]
  simp [ld.pow, ld.ofNat_def, ld.mul_def, ld.mul, ld.div_def, ld.div, hd0]

/-- C12, as the claim states it, fails in its first part: on the default model
with `curveRadius = -2.39`, the opposite of its width, the centripetal force at
velocity `0` is `0 / 0`, which is NaN, not `0`. -/
theorem centripetal_force_nan_at_rest :
    (setRadius (initial seriesMath) (ld.fin (-(239 / 100)))).calculateCentripetalForce 0
        = ld.nan ∧
      (setRadius (initial seriesMath) (ld.fin (-(239 / 100)))).calculateCentripetalForce 0
        ≠ 0 := by
  have h : (setRadius (initial seriesMath) (ld.fin (-(239 / 100)))).calculateCentripetalForce 0
      = ld.nan := by
    simp [calculateCentripetalForce, setRadius, initial, VehicleParameters.default,
      ld.pow, ld.ofNat_def, ld.mul_def, ld.mul, ld.add_def, ld.add, ld.div_def, ld.div]
  exact ⟨h, by rw [h]; exact fun e => ld.noConfusion e⟩

/-- C12, amended. Zero-speed boundary: at `velocity = 0`, on a model with a real
mass and a real non-zero `curveRadius + width`, `calculateCentripetalForce`
returns `0`; and for every model whose torque and lateral tire forces at velocity
`0` (those of the wind alone, at `time = 0`) are strictly below `weightTorque`
and `frictionLimit`, both positive, `checkMaximumLimits(0)` returns false
(stable). -/
theorem zero_speed_boundary (M : CMath) (s : SafeSpeedCalculator) :
    (∀ m d : ℚ, s.params.mass = ld.fin m →
      s.params.curveRadius + s.params.width = ld.fin d → d ≠ 0 →
      s.calculateCentripetalForce 0 = 0) ∧
    (ld.lt 0 (weightTorque M (withGeometry M s)) = true →
      ld.lt 0 (frictionLimit (withGeometry M s)) = true →
      ld.lt (stepLoads M (withGeometry M s) 0
          ((withGeometry M s).calculateCentripetalForce 0)
          ((withGeometry M s).calculateModifiedCentripetalForce M
            ((withGeometry M s).calculateCentripetalForce 0)) 0).torque
        (weightTorque M (withGeometry M s)) = true →
      ld.lt (stepLoads M (withGeometry M s) 0
          ((withGeometry M s).calculateCentripetalForce 0)
          ((withGeometry M s).calculateModifiedCentripetalForce M
            ((withGeometry M s).calculateCentripetalForce 0)) 0).frontForce
        (frictionLimit (withGeometry M s)) = true →
      ld.lt (stepLoads M (withGeometry M s) 0
          ((withGeometry M s).calculateCentripetalForce 0)
          ((withGeometry M s).calculateModifiedCentripetalForce M
            ((withGeometry M s).calculateCentripetalForce 0)) 0).rearForce
        (frictionLimit (withGeometry M s)) = true →
      (s.checkMaximumLimits M 0).1 = false) := by
  refine ⟨fun m d hm hd hd0 => centripetalForce_zero s m d hm hd hd0, ?_⟩
  intro hw hf hτ hfront hrear
  rw [checkMaximumLimits_verdict, Bool.or_eq_false_iff]
  unfold maxTorque maxForce simulatedLoads
  rcases traversalTimes_zero_velocity M (withGeometry M s) with h | h <;> rw [h]
  · exact ⟨ld.ge_eq_false_of_lt _ _ hw, ld.ge_eq_false_of_lt _ _ hf⟩
  · simp only [List.map_cons, List.map_nil, List.foldl_cons, List.foldl_nil]
    exact ⟨ld.ge_max_zero_eq_false _ _ hw hτ,
      ld.ge_max_zero_eq_false _ _ hf (ld.max_lt _ _ _ hfront hrear)⟩

end SafeSpeedCalculator

/-! ## The reference configuration -/

namespace SafeSpeedCalculator

/-- C16. The reference configuration satisfies the data-model invariants: with
the constructor defaults and each radius of `testRadii` (15, 30, 50, 80, 120,
230, 380, 570), all geometric and mass fields are `> 0`, `frictionCoeff` is in
`(0, 1]`, `curveRadius > wheelbase / 2`, so that
`0 < wheelbase / (2 * curveRadius) <= 1` and the inverse sine is taken inside its
domain, and the divisors `curveRadius + width` and `GAS_CONSTANT * temperature`
are non-zero. -/
theorem reference_configuration_invariants (M : CMath) (r : ld) (hr : r ∈ testRadii) :
    ld.lt 0 ((initial M).setRadius r).params.height = true ∧
      ld.lt 0 ((initial M).setRadius r).params.length = true ∧
      ld.lt 0 ((initial M).setRadius r).params.width = true ∧
      ld.lt 0 ((initial M).setRadius r).params.wheelbase = true ∧
      ld.lt 0 ((initial M).setRadius r).params.wheelWidth = true ∧
      ld.lt 0 ((initial M).setRadius r).params.mass = true ∧
      ld.lt 0 ((initial M).setRadius r).params.curveRadius = true ∧
      ld.lt 0 ((initial M).setRadius r).params.frictionCoeff = true ∧
      ld.le ((initial M).setRadius r).params.frictionCoeff 1 = true ∧
      ld.lt (((initial M).setRadius r).params.wheelbase / 2)
        ((initial M).setRadius r).params.curveRadius = true ∧
      ld.lt 0 (((initial M).setRadius r).params.wheelbase
        / (2 * ((initial M).setRadius r).params.curveRadius)) = true ∧
      ld.le (((initial M).setRadius r).params.wheelbase
        / (2 * ((initial M).setRadius r).params.curveRadius)) 1 = true ∧
      tireAngle M ((initial M).setRadius r).params ≠ ld.nan ∧
      ld.lt 0 (((initial M).setRadius r).params.curveRadius
        + ((initial M).setRadius r).params.width) = true ∧
      ((initial M).setRadius r).params.curveRadius
        + ((initial M).setRadius r).params.width ≠ 0 ∧
      ld.lt 0 (GAS_CONSTANT * ((initial M).setRadius r).params.temperature) = true ∧
      GAS_CONSTANT * ((initial M).setRadius r).params.temperature ≠ 0 := by
  simp only [testRadii, List.mem_cons, List.mem_singleton, List.not_mem_nil, or_false] at hr
  rcases hr with h | h | h | h | h | h | h | h <;> subst h <;>
    simp [setRadius, initial, VehicleParameters.default, GAS_CONSTANT, tireAngle, ld.asin,
      ld.fabs, ld.ofNat_def, ld.div_def, ld.mul_def, ld.add_def, ld.div, ld.mul, ld.add,
      ld.lt, ld.le] <;>
    norm_num <;>
    exact fun h => ld.noConfusion h

/-- C16, at the first radius of the list, `15`. -/
theorem reference_configuration_invariants_witness :
    (15 : ld) ∈ testRadii ∧
      ld.lt (((initial flatMath).setRadius 15).params.wheelbase / 2)
        ((initial flatMath).setRadius 15).params.curveRadius = true ∧
      ld.le (((initial flatMath).setRadius 15).params.wheelbase
        / (2 * ((initial flatMath).setRadius 15).params.curveRadius)) 1 = true :=
  ⟨by simp [testRadii],
    (reference_configuration_invariants flatMath 15 (by simp [testRadii])).2.2.2.2.2.2.2.2.2.1,
    (reference_configuration_invariants flatMath 15
      (by simp [testRadii])).2.2.2.2.2.2.2.2.2.2.2.1⟩

end SafeSpeedCalculator

/-! ## The evaluator without aerodynamic load -/

namespace ld

theorem add_fin_zero (a : ld) : a + fin 0 = a := by
  cases a <;> simp [add_def, add]

theorem fin_zero_add (a : ld) : fin 0 + a = a := by
  cases a <;> simp [add_def, add]

theorem fin_zero_mul_fin (b : ℚ) : fin 0 * fin b = fin 0 := by
  simp [mul_def, mul]

theorem fin_sub_fin (a b : ℚ) : fin a - fin b = fin (a - b) := by
  simp [sub_def, add, neg, sub_eq_add_neg]

/-- The maximum with the same value twice is the maximum with it once. -/
theorem max_max_self (a x : ld) : max (max a x) x = max a x := by
  unfold max
  by_cases h : lt a x = true
  · simp [h]
  · simp [h]

/-- A running maximum over a non-empty list whose values are all `x`. -/
theorem foldl_max_const {β : Type} (f : β → ld) (x : ld) (l : List β) (a : ld)
    (hf : ∀ b ∈ l, f b = x) (hl : l ≠ []) :
    l.foldl (fun acc b => max acc (f b)) a = max a x := by
  induction l generalizing a with
  | nil => exact absurd rfl hl
  | cons b l ih =>
    rw [List.foldl_cons, hf b (List.mem_cons_self b l)]
    by_cases hnil : l = []
    · rw [hnil]
      rfl
    · rw [ih (max a x) (fun c hc => hf c (List.mem_cons_of_mem b hc)) hnil, max_max_self]

end ld

namespace SafeSpeedCalculator

/-- The loads of a step from its aerodynamic force and the bearing of the
relative wind. -/
theorem stepLoads_eq (M : CMath) (s : SafeSpeedCalculator) (v cF mCF t : ld) :
    stepLoads M s v cF mCF t
      = { frontForce := cF + stepAeroForce M s v t * ld.sin M (stepBearing M s v t - s.theta)
          rearForce := cF * ld.cos M s.theta
            + stepAeroForce M s v t * ld.sin M (stepBearing M s v t)
          torque := ld.fabs ((s.params.height / 2)
            * (stepAeroForce M s v t * ld.sin M (stepBearing M s v t - s.alpha) + mCF)) } :=
  rfl

/-- A step whose aerodynamic force is a finite value has a finite bearing of the
relative wind: an infinite or NaN bearing makes the cross-section, and with it
the force, NaN. -/
theorem stepBearing_finite (M : CMath) (s : SafeSpeedCalculator) (v t : ld) (a : ℚ)
    (h : stepAeroForce M s v t = ld.fin a) : ∃ x, stepBearing M s v t = ld.fin x := by
  unfold stepAeroForce calculateAerodynamicForce calculateCrossSectionalArea at h
  unfold stepBearing
  cases hb : calculateLambda M (s.calculateRelativeVelocityHorizontal M v t)
      (s.calculateRelativeVelocityVertical M v t) - s.calculatePhi v t with
  | fin x => exact ⟨x, rfl⟩
  | pinf => rw [hb] at h; simp [ld.cos] at h
  | ninf => rw [hb] at h; simp [ld.cos] at h
  | nan => rw [hb] at h; simp [ld.cos] at h

/-- The loads of a step without aerodynamic force, on an object with a finite
`theta`: the centripetal force in front, its `cos(theta)` part at the rear, and
the torque of its `cos(alpha)` part. -/
theorem stepLoads_of_no_aero (M : CMath) (s : SafeSpeedCalculator) (v cF t : ld) (θ : ℚ)
    (hθ : s.theta = ld.fin θ) (h : stepAeroForce M s v t = 0) :
    stepLoads M s v cF (cF * ld.cos M s.alpha) t
      = { frontForce := cF
          rearForce := cF * ld.cos M s.theta
          torque := ld.fabs ((s.params.height / 2) * (cF * ld.cos M s.alpha)) } := by
  have h0 : stepAeroForce M s v t = ld.fin 0 := h
  obtain ⟨x, hx⟩ := stepBearing_finite M s v t 0 h0
  rw [stepLoads_eq, h0, hx, hθ, ld.fin_sub_fin]
  simp only [ld.sin, ld.fin_zero_mul_fin, ld.add_fin_zero]
  congr 2
  cases hα : s.alpha with
  | fin y => simp only [ld.fin_sub_fin, ld.sin, ld.fin_zero_mul_fin, ld.fin_zero_add]
  | pinf => simp [ld.sub_def, ld.neg, ld.add, ld.sin, ld.cos]
  | ninf => simp [ld.sub_def, ld.neg, ld.add, ld.sin, ld.cos]
  | nan => simp [ld.sin, ld.cos]

/-- When the traversal loop runs at all, `theta` is a finite angle. -/
theorem theta_finite_of_runs (M : CMath) (s : SafeSpeedCalculator) (v : ld)
    (hrun : traversalTimes M (timeMax M (withGeometry M s) v) ≠ []) :
    ∃ θ, (withGeometry M s).theta = ld.fin θ := by
  cases hθ : (withGeometry M s).theta with
  | fin θ => exact ⟨θ, rfl⟩
  | nan =>
    exfalso
    apply hrun
    apply traversalTimes_of_not_lt
    simp [timeMax, hθ]
  | pinf =>
    exfalso
    simp only [withGeometry, tireAngle] at hθ
    cases hq : ld.asin M (s.params.wheelbase / (2 * s.params.curveRadius)) with
    | fin q => rw [hq] at hθ; simp [ld.fabs] at hθ
    | nan => rw [hq] at hθ; simp [ld.fabs] at hθ
    | pinf =>
      cases hr : s.params.wheelbase / (2 * s.params.curveRadius) with
      | fin r => rw [hr] at hq; simp only [ld.asin] at hq; split at hq <;> simp at hq
      | pinf => rw [hr] at hq; simp [ld.asin] at hq
      | ninf => rw [hr] at hq; simp [ld.asin] at hq
      | nan => rw [hr] at hq; simp [ld.asin] at hq
    | ninf =>
      cases hr : s.params.wheelbase / (2 * s.params.curveRadius) with
      | fin r => rw [hr] at hq; simp only [ld.asin] at hq; split at hq <;> simp at hq
      | pinf => rw [hr] at hq; simp [ld.asin] at hq
      | ninf => rw [hr] at hq; simp [ld.asin] at hq
      | nan => rw [hr] at hq; simp [ld.asin] at hq
  | ninf =>
    exfalso
    simp only [withGeometry, tireAngle] at hθ
    cases hq : ld.asin M (s.params.wheelbase / (2 * s.params.curveRadius)) with
    | fin q => rw [hq] at hθ; simp [ld.fabs] at hθ
    | nan => rw [hq] at hθ; simp [ld.fabs] at hθ
    | pinf => rw [hq] at hθ; simp [ld.fabs] at hθ
    | ninf => rw [hq] at hθ; simp [ld.fabs] at hθ

/-- The verdict of `checkMaximumLimits` when the loop runs and no step has an
aerodynamic force. -/
theorem verdict_of_no_aero (M : CMath) (s : SafeSpeedCalculator) (v : ld)
    (hrun : traversalTimes M (timeMax M (withGeometry M s) v) ≠ [])
    (haero : ∀ t ∈ traversalTimes M (timeMax M (withGeometry M s) v),
      stepAeroForce M (withGeometry M s) v t = 0) :
    (s.checkMaximumLimits M v).1
      = (ld.ge (ld.max 0 (ld.fabs ((s.params.height / 2)
            * (s.calculateCentripetalForce v * ld.cos M (supportAngle M s.params)))))
            (weightTorque M (withGeometry M s))
          || ld.ge (ld.max 0 (ld.max (s.calculateCentripetalForce v)
              (s.calculateCentripetalForce v * ld.cos M (tireAngle M s.params))))
            (frictionLimit (withGeometry M s))) := by
  obtain ⟨θ, hθ⟩ := theta_finite_of_runs M s v hrun
  have hloads : ∀ t ∈ traversalTimes M (timeMax M (withGeometry M s) v),
      stepLoads M (withGeometry M s) v ((withGeometry M s).calculateCentripetalForce v)
          ((withGeometry M s).calculateModifiedCentripetalForce M
            ((withGeometry M s).calculateCentripetalForce v)) t
        = { frontForce := s.calculateCentripetalForce v
            rearForce := s.calculateCentripetalForce v * ld.cos M (tireAngle M s.params)
            torque := ld.fabs ((s.params.height / 2)
              * (s.calculateCentripetalForce v * ld.cos M (supportAngle M s.params))) } := by
    intro t ht
    exact stepLoads_of_no_aero M (withGeometry M s) v _ t θ hθ (haero t ht)
  rw [checkMaximumLimits_verdict]
  unfold maxTorque maxForce simulatedLoads
  rw [List.foldl_map, List.foldl_map]
  rw [ld.foldl_max_const _ _ _ 0 (fun t ht => by rw [hloads t ht]) hrun,
    ld.foldl_max_const _ _ _ 0 (fun t ht => by rw [hloads t ht]) hrun]

end SafeSpeedCalculator

namespace ld

theorem fin_add_fin (a b : ℚ) : fin a + fin b = fin (a + b) := rfl

theorem fin_mul_fin (a b : ℚ) : fin a * fin b = fin (a * b) := rfl

theorem fin_div_fin (a b : ℚ) (h : b ≠ 0) : fin a / fin b = fin (a / b) := by
  simp [div_def, div, h]

end ld

namespace SafeSpeedCalculator

/-- The relative velocity of finite components is finite: the square root is
taken of a sum of two squares. -/
theorem calculateRelativeVelocity_fin (M : CMath) (a b : ℚ) :
    calculateRelativeVelocity M (ld.fin a) (ld.fin b)
      = ld.fin (M.sqrt (a * (a * 1) + b * (b * 1))) := by
  simp only [calculateRelativeVelocity, ld.pow, ld.fin_mul_fin, ld.fin_add_fin, ld.sqrt]
  rw [if_pos]
  nlinarith [mul_self_nonneg a, mul_self_nonneg b]

/-- On a model with real fields, zero air pressure and a non-zero temperature and
radius, a step at a finite velocity and time has no aerodynamic force. -/
theorem stepAeroForce_of_no_pressure (M : CMath) (s : SafeSpeedCalculator)
    (h w l R T W A θ v t : ℚ)
    (hh : s.params.height = ld.fin h) (hw : s.params.width = ld.fin w)
    (hl : s.params.length = ld.fin l) (hR : s.params.curveRadius = ld.fin R) (hR0 : R ≠ 0)
    (hP : s.params.airPressure = ld.fin 0) (hT : s.params.temperature = ld.fin T)
    (hT0 : T ≠ 0) (hW : s.params.windVelocity = ld.fin W)
    (hA : s.params.windAngle = ld.fin A) (hθ : s.theta = ld.fin θ) :
    stepAeroForce M s (ld.fin v) (ld.fin t) = 0 := by
  have hG : (28705 / 100 : ℚ) * T ≠ 0 := mul_ne_zero (by norm_num) hT0
  simp only [stepAeroForce, calculateAerodynamicForce, calculateCrossSectionalArea,
    calculateLambda, calculateRelativeVelocityHorizontal, calculateRelativeVelocityVertical,
    calculatePhi, hh, hw, hl, hR, hP, hT, hW, hA, hθ, GAS_CONSTANT, DRAG_COEFFICIENT,
    ld.fin_mul_fin, ld.fin_div_fin _ _ hR0, ld.fin_add_fin, ld.sin, ld.cos, ld.atan2,
    ld.fin_sub_fin, ld.fabs, calculateRelativeVelocity_fin, ld.pow,
    ld.fin_div_fin _ _ hG]
  simp [ld.ofNat_def]

end SafeSpeedCalculator

namespace SafeSpeedCalculator

/-- The geometry of the default model without wind and drag, under `seriesMath`. -/
theorem calm_geometry :
    withGeometry seriesMath (calm seriesMath)
      = { params := (calm seriesMath).params, theta := ld.fin calmTheta,
          alpha := ld.fin calmAlpha } := by
  have hθ : tireAngle seriesMath (calm seriesMath).params = ld.fin calmTheta := by
    have e : (calm seriesMath).params.wheelbase / (2 * (calm seriesMath).params.curveRadius)
        = ld.fin (3 / 20) := by
      simp only [calm, VehicleParameters.default, ld.ofNat_def, ld.fin_mul_fin]
      rw [ld.fin_div_fin _ _ (by norm_num)]
      norm_num
    rw [tireAngle, e]
    simp only [ld.asin]
    rw [if_pos (by norm_num)]
    simp only [ld.fabs, seriesMath, calmTheta]
    norm_num [abs_of_pos]
  have hα : supportAngle seriesMath (calm seriesMath).params = ld.fin calmAlpha := by
    rw [supportAngle, hθ]
    simp only [calm, VehicleParameters.default, ld.ofNat_def, ld.fin_mul_fin, ld.fin_add_fin,
      ld.cos, ld.sin]
    rw [ld.fin_div_fin _ _ (by norm_num [seriesMath, calmTheta])]
    simp only [ld.atan, calmAlpha]
  simp only [withGeometry, hθ, hα]

/-- The speed of the counterexample to the closed form, `11.273` m/s. -/
theorem calm_timeMax :
    timeMax seriesMath (withGeometry seriesMath (calm seriesMath)) (ld.fin (11273 / 1000))
      = ld.fin (38516745 / 10190792) := by
  rw [calm_geometry]
  simp only [timeMax, calm, VehicleParameters.default, seriesMath, calmTheta, ld.ofNat_def,
    ld.fin_sub_fin, ld.fin_mul_fin]
  rw [ld.fin_div_fin _ _ (by norm_num), ld.fin_sub_fin, ld.fin_mul_fin,
    ld.fin_div_fin _ _ (by norm_num)]
  norm_num

/-- At `11.273` m/s the traversal loop of the calm model runs. -/
theorem calm_runs :
    traversalTimes seriesMath (timeMax seriesMath (withGeometry seriesMath (calm seriesMath))
      (ld.fin (11273 / 1000))) ≠ [] := by
  rw [calm_timeMax, traversalTimes_finite seriesMath (fun _ => rfl) _ (by norm_num)]
  intro h
  have hlen := congrArg List.length h
  rw [List.length_map, List.length_range] at hlen
  exact absurd hlen (by decide)

/-- At `11.273` m/s no step of the calm model has an aerodynamic force. -/
theorem calm_no_aero :
    ∀ t ∈ traversalTimes seriesMath (timeMax seriesMath (withGeometry seriesMath (calm seriesMath))
        (ld.fin (11273 / 1000))),
      stepAeroForce seriesMath (withGeometry seriesMath (calm seriesMath))
        (ld.fin (11273 / 1000)) t = 0 := by
  intro t ht
  rw [calm_timeMax, traversalTimes_finite seriesMath (fun _ => rfl) _ (by norm_num), List.mem_map] at ht
  obtain ⟨k, _, hk⟩ := ht
  rw [← hk, calm_geometry]
  exact stepAeroForce_of_no_pressure seriesMath _ (38 / 10) (239 / 100) 12 30 313 0
    (seriesMath.M_PI / 2) calmTheta _ _ rfl rfl rfl rfl (by norm_num) rfl rfl (by norm_num)
    rfl (by simp [calm, VehicleParameters.default, ld.fin_div_fin]) rfl

/-- The centripetal force of the calm model at `11.273` m/s. -/
theorem calm_centripetal :
    (calm seriesMath).calculateCentripetalForce (ld.fin (11273 / 1000))
      = ld.fin (12500 * (11273 / 1000 * (11273 / 1000)) / (3239 / 100)) := by
  simp only [calculateCentripetalForce, calm, VehicleParameters.default, ld.pow,
    ld.fin_mul_fin, ld.fin_add_fin]
  rw [ld.fin_div_fin _ _ (by norm_num)]
  norm_num

/-- The friction limit of the calm model. -/
theorem calm_frictionLimit :
    frictionLimit (withGeometry seriesMath (calm seriesMath))
      = ld.fin (12500 * (980665 / 100000) * (4 / 10)) := by
  simp only [frictionLimit, withGeometry, calm, VehicleParameters.default, GRAVITY,
    ld.fin_mul_fin]

/-- At `11.273` m/s the calm model exceeds the limits: the front force, which is
the centripetal force, is above the friction limit. -/
theorem calm_verdict :
    ((calm seriesMath).checkMaximumLimits seriesMath (ld.fin (11273 / 1000))).1 = true := by
  rw [verdict_of_no_aero _ _ _ calm_runs calm_no_aero, Bool.or_eq_true]
  right
  have hθ : tireAngle seriesMath (calm seriesMath).params = ld.fin calmTheta :=
    congrArg SafeSpeedCalculator.theta calm_geometry
  rw [calm_centripetal, calm_frictionLimit, hθ]
  norm_num [ld.cos, ld.fin_mul_fin, ld.max, ld.lt, ld.ge, ld.le, ld.ofNat_def, seriesMath,
    calmTheta]

/-- At `11.273` m/s the `cos(alpha)` part of the centripetal force of the calm
model is below the friction limit. -/
theorem calm_modified_below :
    ld.ge ((withGeometry seriesMath (calm seriesMath)).calculateModifiedCentripetalForce
        seriesMath ((withGeometry seriesMath (calm seriesMath)).calculateCentripetalForce
          (ld.fin (11273 / 1000))))
      (frictionLimit (withGeometry seriesMath (calm seriesMath))) = false := by
  have hc : (withGeometry seriesMath (calm seriesMath)).calculateCentripetalForce
      (ld.fin (11273 / 1000))
      = ld.fin (12500 * (11273 / 1000 * (11273 / 1000)) / (3239 / 100)) := calm_centripetal
  rw [hc, calm_frictionLimit, calm_geometry]
  norm_num [calculateModifiedCentripetalForce, ld.cos, ld.fin_mul_fin, ld.ge, ld.le,
    seriesMath, calmAlpha, calmTheta]

end SafeSpeedCalculator

namespace SafeSpeedCalculator

/-- C11, as the claim states it, fails: on the default model with zero wind and
zero drag, at the velocity `11.273` m/s, no step has an aerodynamic force and the
loop runs, `checkMaximumLimits` returns true (the front force
`mass * v^2 / (curveRadius + width)` is above the friction limit), yet
`mass * v^2 / (curveRadius + width) * cos(alpha) >= frictionLimit` is false. -/
theorem closed_form_threshold_fails :
    (∀ t ∈ traversalTimes seriesMath (timeMax seriesMath (withGeometry seriesMath (calm seriesMath))
        (ld.fin (11273 / 1000))),
      stepAeroForce seriesMath (withGeometry seriesMath (calm seriesMath))
        (ld.fin (11273 / 1000)) t = 0) ∧
      traversalTimes seriesMath (timeMax seriesMath (withGeometry seriesMath (calm seriesMath))
        (ld.fin (11273 / 1000))) ≠ [] ∧
      ld.lt 0 (ld.fin (11273 / 1000)) = true ∧
      ((calm seriesMath).checkMaximumLimits seriesMath (ld.fin (11273 / 1000))).1 = true ∧
      ld.ge ((withGeometry seriesMath (calm seriesMath)).calculateModifiedCentripetalForce
          seriesMath ((withGeometry seriesMath (calm seriesMath)).calculateCentripetalForce
            (ld.fin (11273 / 1000))))
        (frictionLimit (withGeometry seriesMath (calm seriesMath))) = false :=
  ⟨calm_no_aero, calm_runs, by norm_num [ld.lt, ld.ofNat_def], calm_verdict,
    calm_modified_below⟩

/-- C11, amended. For every model whose aerodynamic force is zero at every step
and every velocity for which the traversal loop runs, `checkMaximumLimits(v)` is
true if and only if `|height / 2 * (cF * cos(alpha))| >= weightTorque` or
`max(cF, cF * cos(theta)) >= frictionLimit`, with
`cF = mass * v^2 / (curveRadius + width)` and both left sides taken as maxima
with `0`. -/
theorem no_aero_verdict_iff (M : CMath) (s : SafeSpeedCalculator) (v : ld)
    (hrun : traversalTimes M (timeMax M (withGeometry M s) v) ≠ [])
    (haero : ∀ t ∈ traversalTimes M (timeMax M (withGeometry M s) v),
      stepAeroForce M (withGeometry M s) v t = 0) :
    (s.checkMaximumLimits M v).1 = true ↔
      ld.ge (ld.max 0 (ld.fabs ((s.params.height / 2)
          * ((s.params.mass * ld.pow v 2) / (s.params.curveRadius + s.params.width)
            * ld.cos M (supportAngle M s.params)))))
        (weightTorque M (withGeometry M s)) = true ∨
      ld.ge (ld.max 0 (ld.max
          ((s.params.mass * ld.pow v 2) / (s.params.curveRadius + s.params.width))
          ((s.params.mass * ld.pow v 2) / (s.params.curveRadius + s.params.width)
            * ld.cos M (tireAngle M s.params))))
        (frictionLimit (withGeometry M s)) = true := by
  rw [verdict_of_no_aero M s v hrun haero, Bool.or_eq_true]
  rfl

/-- C11 amended, at the default model with zero wind and zero drag and the
velocity `11.273` m/s. -/
theorem no_aero_verdict_iff_witness :
    traversalTimes seriesMath (timeMax seriesMath (withGeometry seriesMath (calm seriesMath))
        (ld.fin (11273 / 1000))) ≠ [] ∧
      (∀ t ∈ traversalTimes seriesMath (timeMax seriesMath (withGeometry seriesMath (calm seriesMath))
          (ld.fin (11273 / 1000))),
        stepAeroForce seriesMath (withGeometry seriesMath (calm seriesMath))
          (ld.fin (11273 / 1000)) t = 0) ∧
      (((calm seriesMath).checkMaximumLimits seriesMath (ld.fin (11273 / 1000))).1 = true ↔
        ld.ge (ld.max 0 (ld.fabs (((calm seriesMath).params.height / 2)
            * (((calm seriesMath).params.mass * ld.pow (ld.fin (11273 / 1000)) 2)
                / ((calm seriesMath).params.curveRadius + (calm seriesMath).params.width)
              * ld.cos seriesMath (supportAngle seriesMath (calm seriesMath).params)))))
          (weightTorque seriesMath (withGeometry seriesMath (calm seriesMath))) = true ∨
        ld.ge (ld.max 0 (ld.max
            (((calm seriesMath).params.mass * ld.pow (ld.fin (11273 / 1000)) 2)
              / ((calm seriesMath).params.curveRadius + (calm seriesMath).params.width))
            (((calm seriesMath).params.mass * ld.pow (ld.fin (11273 / 1000)) 2)
                / ((calm seriesMath).params.curveRadius + (calm seriesMath).params.width)
              * ld.cos seriesMath (tireAngle seriesMath (calm seriesMath).params))))
          (frictionLimit (withGeometry seriesMath (calm seriesMath))) = true) :=
  ⟨calm_runs, calm_no_aero,
    no_aero_verdict_iff seriesMath (calm seriesMath) (ld.fin (11273 / 1000)) calm_runs
      calm_no_aero⟩

end SafeSpeedCalculator

/-! ## The speeds the search evaluates -/

namespace MaxSafeSpeedSearch

/-- C15. Every speed passed to the evaluator inside the bisection loop is
strictly between `0` and `10000`, so it is not zero and `timeMax` is not a
quotient by zero there; the final re-evaluation, at the `left` the loop ends
with, is at speed exactly `0` if and only if every midpoint evaluated in the loop
(the 44 of them) was reported as exceeding the limits; and at speed `0` the
quotient `timeMax` of `checkMaximumLimits` is by zero: it is `+inf`, `-inf` or
NaN. -/
theorem loop_speeds_positive_final_zero_iff {σ : Type} (check : σ → ℚ → Bool × σ) (obj : σ) :
    (∀ k, 0 < midpointAt check obj k ∧ midpointAt check obj k < 10000 ∧
        midpointAt check obj k ≠ 0) ∧
      ((bisectionLoop check (initialState obj)).left = 0 ↔
        ∀ k, k < 44 → verdictAt check obj k = true) ∧
      (calculateMaximumSafeSpeed check obj).2
        = (check (bisectionLoop check (initialState obj)).obj
            (bisectionLoop check (initialState obj)).left).2 ∧
      (∀ (M : CMath) (s : SafeSpeedCalculator),
        SafeSpeedCalculator.timeMax M s (ld.fin 0) = ld.pinf ∨
          SafeSpeedCalculator.timeMax M s (ld.fin 0) = ld.ninf ∨
          SafeSpeedCalculator.timeMax M s (ld.fin 0) = ld.nan) := by
  refine ⟨fun k => ?_, ?_, rfl, fun M s => ?_⟩
  · have h := midpointAt_range check obj k
    exact ⟨h.1, h.2, ne_of_gt h.1⟩
  · rw [loop_eq_stateAfter]
    exact left_zero_iff check obj 44
  · exact ld.div_zero_cases _

end MaxSafeSpeedSearch

/-! ## The traversal loop: number of passes -/

namespace SafeSpeedCalculator

/-- The traversal time of the default model at velocity `0` is `+inf`: a positive
numerator over zero. -/
theorem rest_timeMax :
    timeMax seriesMath (withGeometry seriesMath (initial seriesMath)) 0 = ld.pinf := by
  have hθ : tireAngle seriesMath (initial seriesMath).params = ld.fin calmTheta := by
    have e : (initial seriesMath).params.wheelbase / (2 * (initial seriesMath).params.curveRadius)
        = ld.fin (3 / 20) := by
      simp only [initial, VehicleParameters.default, ld.ofNat_def, ld.fin_mul_fin]
      rw [ld.fin_div_fin _ _ (by norm_num)]
      norm_num
    rw [tireAngle, e]
    simp only [ld.asin]
    rw [if_pos (by norm_num)]
    simp only [ld.fabs, seriesMath, calmTheta]
    norm_num [abs_of_pos]
  rw [timeMax]
  simp only [withGeometry]
  rw [hθ]
  simp only [initial, VehicleParameters.default, seriesMath, calmTheta, ld.ofNat_def]
  rw [ld.fin_div_fin _ _ (by norm_num), ld.fin_sub_fin, ld.fin_mul_fin]
  simp only [ld.div_def, ld.div]
  norm_num

/-- C7, as the claim states it, fails: for the default model at velocity `0` the
traversal time `timeMax` is `+inf`, which is above `0`, and the traversal loop
runs its body once, at `time = 0`, not `10000` times: the step is `+inf`, and
after one update the test `time < timeMax` is `inf < inf`. -/
theorem traversal_runs_once_at_rest :
    ld.lt 0 (timeMax seriesMath (withGeometry seriesMath (initial seriesMath)) 0) = true ∧
      traversalTimes seriesMath
        (timeMax seriesMath (withGeometry seriesMath (initial seriesMath)) 0) = [0] ∧
      (simulatedLoads seriesMath (withGeometry seriesMath (initial seriesMath)) 0).length = 1 ∧
      (simulatedLoads seriesMath (withGeometry seriesMath (initial seriesMath)) 0).length
        ≠ 10000 := by
  have h : traversalTimes seriesMath
      (timeMax seriesMath (withGeometry seriesMath (initial seriesMath)) 0) = [0] := by
    rw [rest_timeMax]
    exact traversalTimes_pinf seriesMath
  refine ⟨by rw [rest_timeMax]; decide, h, ?_, ?_⟩ <;> simp [simulatedLoads, h]

/-- C7, amended. For every model and velocity with a finite traversal time
`timeMax = curveRadius * (pi/2 - theta) / velocity > 0`, the traversal loop of
`checkMaximumLimits` runs its body `n` times and then terminates, where `n` is
`10000` or `10001`: at the values `time` takes under the rounded updates
`time += timeStep` from `0`, all in `[0, timeMax)`, the `k`-th within the relative
distance `2 ^ -39` of `k * timeMax / 10000`; the value after the last of them is
not below `timeMax`.  In exact arithmetic `n` is `10000` and the times are
`k * timeMax / 10000` themselves; on a platform that never rounds up and rounds
the step down, `n` is `10001`. -/
theorem traversal_pass_count (M : CMath) (s : SafeSpeedCalculator) (v : ld) (q : ℚ)
    (ht : timeMax M (withGeometry M s) v = ld.fin q) (hq : 0 < q) :
    ∃ n : ℕ, (n = 10000 ∨ n = 10001) ∧
      traversalTimes M (timeMax M (withGeometry M s) v)
        = (List.range n).map (fun k : ℕ => ld.fin (timeAt M q k)) ∧
      (simulatedLoads M (withGeometry M s) v).length = n ∧
      (∀ {β : Type} (body : ld → β → β) (acc : β),
        traversalLoop M body (timeMax M (withGeometry M s) v) 0 (by decide) acc
          = ((List.range n).map (fun k : ℕ => ld.fin (timeAt M q k))).foldl
              (fun a t => body t a) acc) ∧
      (∀ k : ℕ, k < n → 0 ≤ timeAt M q k ∧ timeAt M q k < q ∧
        |timeAt M q k - (k : ℚ) * (q / 10000)| ≤ (k : ℚ) * (q / 10000) / 2 ^ 39) ∧
      ¬ timeAt M q n < q ∧
      ((∀ x : ℚ, M.fl x = x) →
        n = 10000 ∧ ∀ k : ℕ, timeAt M q k = (k : ℚ) * (q / 10000)) ∧
      ((∀ x : ℚ, 0 ≤ x → M.fl x ≤ x) → M.fl (q / 10000) < q / 10000 → n = 10001) := by
  obtain ⟨n, hn, hrun, hstop, hts⟩ := traversalTimes_count M q hq
  have hn2 : n ≤ 10001 := by omega
  refine ⟨n, hn, by rw [ht, hts], ?_, ?_, ?_, hstop, ?_, ?_⟩
  · rw [simulatedLoads, ht, hts]
    simp
  · intro β body acc
    rw [traversalLoop_eq_foldl M body _ _ _ _ _ rfl, ← hts, ← ht]
    rfl
  · intro k hk
    have hb := timeAt_bounds M q hq k (by omega)
    refine ⟨timeAt_nonneg M q hq k (by omega), hrun k hk, abs_le.2 ⟨?_, ?_⟩⟩
    · linarith [hb.1]
    · linarith [hb.2]
  · intro hfl
    refine ⟨?_, timeAt_exact M hfl q⟩
    rcases hn with h | h
    · exact h
    · exfalso
      have h1 := hrun 10000 (by omega)
      rw [timeAt_exact M hfl] at h1
      push_cast at h1
      linarith
  · intro hdown hstep
    rcases hn with h | h
    · exfalso
      rw [h] at hstop
      exact hstop (timeAt_of_round_down M q hq hdown hstep)
    · exact h

/-- The amended C7 at the calm model at `11.273` m/s, whose traversal time is
`38516745 / 10190792` seconds (about `3.78`). -/
theorem traversal_pass_count_witness :
    timeMax seriesMath (withGeometry seriesMath (calm seriesMath)) (ld.fin (11273 / 1000))
        = ld.fin (38516745 / 10190792) ∧
      (0 : ℚ) < 38516745 / 10190792 ∧
      ∃ n : ℕ, (n = 10000 ∨ n = 10001) ∧
        (simulatedLoads seriesMath (withGeometry seriesMath (calm seriesMath))
          (ld.fin (11273 / 1000))).length = n := by
  refine ⟨calm_timeMax, by norm_num, ?_⟩
  obtain ⟨n, hn, _, hlen, _⟩ :=
    traversal_pass_count seriesMath (calm seriesMath) (ld.fin (11273 / 1000)) _ calm_timeMax
      (by norm_num)
  exact ⟨n, hn, hlen⟩

/-- The step of the calm model at `11.273` m/s is not a `long double`: rounded
toward minus infinity it is strictly smaller. -/
theorem downward_step :
    roundDown (38516745 / 10190792 / 10000) < 38516745 / 10190792 / 10000 := by
  have hpos : (0 : ℚ) < |38516745 / 10190792 / 10000| := by norm_num
  have hlog : Int.log 2 |(38516745 / 10190792 / 10000 : ℚ)| = -12 := by
    have h1 : (-12 : ℤ) ≤ Int.log 2 |(38516745 / 10190792 / 10000 : ℚ)| :=
      (Int.zpow_le_iff_le_log (by norm_num) hpos).1 (by norm_num [abs_of_pos])
    have h2 : Int.log 2 |(38516745 / 10190792 / 10000 : ℚ)| < -11 :=
      (Int.lt_zpow_iff_log_lt (by norm_num) hpos).1 (by norm_num [abs_of_pos])
    omega
  have hfloor : ⌊(38516745 / 10190792 / 10000 : ℚ) / (2 : ℚ) ^ (-12 - 63 : ℤ)⌋
      = 14278787016140609517 := by
    rw [Int.floor_eq_iff]
    constructor <;> norm_num
  rw [roundDown, hlog, hfloor]
  norm_num

/-- On the platform that rounds toward minus infinity the calm model at `11.273`
m/s is simulated in `10001` steps: the accumulated `time` reaches `timeMax` only
after one pass more than in exact arithmetic. -/
theorem downward_pass_count :
    (simulatedLoads downwardMath (withGeometry downwardMath (calm downwardMath))
      (ld.fin (11273 / 1000))).length = 10001 := by
  have ht : timeMax downwardMath (withGeometry downwardMath (calm downwardMath))
      (ld.fin (11273 / 1000)) = ld.fin (38516745 / 10190792) := calm_timeMax
  obtain ⟨n, hn, hrun, hstop, hts⟩ :=
    traversalTimes_count downwardMath (38516745 / 10190792) (by norm_num)
  have h1 := timeAt_of_round_down downwardMath (38516745 / 10190792) (by norm_num)
    (fun x _ => roundDown_le x) downward_step
  have hn2 : n = 10001 := by
    rcases hn with h | h
    · rw [h] at hstop
      exact absurd h1 hstop
    · exact h
  rw [simulatedLoads, ht, hts, hn2]
  simp

end SafeSpeedCalculator

/-! ## The reference model at rest in its crosswind -/

namespace SafeSpeedCalculator

/-- Within `[-pi/4, pi/4]` the sine is the sine series. -/
theorem reducedMath_sin_small (x : ℚ) (h1 : -(355 / 452) ≤ x) (h2 : x ≤ 355 / 452) :
    reducedMath.sin x = sinSeries x := by
  simp only [reducedMath]
  rw [if_pos ⟨h1, h2⟩]

/-- Within `[-pi/4, pi/4]` the cosine is the cosine series. -/
theorem reducedMath_cos_small (x : ℚ) (h1 : -(355 / 452) ≤ x) (h2 : x ≤ 355 / 452) :
    reducedMath.cos x = cosSeries x := by
  simp only [reducedMath]
  rw [if_pos ⟨h1, h2⟩]

/-- Near `pi/2` the sine is the cosine series of the distance to `pi/2`. -/
theorem reducedMath_sin_near (x : ℚ) (h0 : 355 / 452 < x) (h2 : x ≤ 355 / 226 + 355 / 452) :
    reducedMath.sin x = cosSeries (x - 355 / 226) := by
  simp only [reducedMath]
  rw [if_neg (fun h => absurd h.2 (not_le.2 h0)), if_pos ⟨by linarith, by linarith⟩]

/-- Near `pi/2` the cosine is minus the sine series of the distance to `pi/2`. -/
theorem reducedMath_cos_near (x : ℚ) (h0 : 355 / 452 < x) (h2 : x ≤ 355 / 226 + 355 / 452) :
    reducedMath.cos x = -sinSeries (x - 355 / 226) := by
  simp only [reducedMath]
  rw [if_neg (fun h => absurd h.2 (not_le.2 h0)), if_pos ⟨by linarith, by linarith⟩]

/-- The square root of the squared wind speed `625` is `25`: the integer square
root is exact and Newton keeps it. -/
theorem reducedMath_sqrt_625 : reducedMath.sqrt 625 = 25 := by
  have h1 : ⌈(625 : ℚ)⌉₊ = 25 * 25 := by
    rw [show (625 : ℚ) = ((625 : ℕ) : ℚ) by norm_num, Nat.ceil_natCast]
  simp only [reducedMath]
  rw [if_neg (by norm_num), h1, Nat.sqrt_eq]
  norm_num

/-- The bearing of a wind across, `atan2(25, 0)`, is `M_PI / 2`. -/
theorem reducedMath_atan2_across : reducedMath.atan2 25 0 = 355 / 226 := by
  simp only [reducedMath]
  norm_num

/-- The bearing of the relative wind in a step at a finite velocity and time, on
a model with real fields and a non-zero radius. -/
theorem stepBearing_fin (M : CMath) (s : SafeSpeedCalculator) (R W A θ v t : ℚ)
    (hR : s.params.curveRadius = ld.fin R) (hR0 : R ≠ 0)
    (hW : s.params.windVelocity = ld.fin W) (hA : s.params.windAngle = ld.fin A)
    (hθ : s.theta = ld.fin θ) :
    stepBearing M s (ld.fin v) (ld.fin t)
      = ld.fin (M.atan2 (v * M.sin (v * t / R + θ) + W * M.sin A)
          (v * M.cos (v * t / R + θ) + W * M.cos A) - v * t / R) := by
  simp only [stepBearing, calculateLambda, calculateRelativeVelocityHorizontal,
    calculateRelativeVelocityVertical, calculatePhi, hR, hW, hA, hθ, ld.fin_mul_fin,
    ld.fin_div_fin _ _ hR0, ld.fin_add_fin, ld.sin, ld.cos, ld.atan2, ld.fin_sub_fin]

/-- The aerodynamic force of a step at a finite velocity and time, on a model
with real fields and a non-zero radius and temperature. -/
theorem stepAeroForce_fin (M : CMath) (s : SafeSpeedCalculator)
    (h w l R P T W A θ v t : ℚ)
    (hh : s.params.height = ld.fin h) (hw : s.params.width = ld.fin w)
    (hl : s.params.length = ld.fin l) (hR : s.params.curveRadius = ld.fin R) (hR0 : R ≠ 0)
    (hP : s.params.airPressure = ld.fin P) (hT : s.params.temperature = ld.fin T)
    (hT0 : T ≠ 0) (hW : s.params.windVelocity = ld.fin W)
    (hA : s.params.windAngle = ld.fin A) (hθ : s.theta = ld.fin θ) :
    stepAeroForce M s (ld.fin v) (ld.fin t)
      = ld.fin (525 / 1000 * P
          * (h * (|w * M.cos (M.atan2 (v * M.sin (v * t / R + θ) + W * M.sin A)
                (v * M.cos (v * t / R + θ) + W * M.cos A) - v * t / R)|
              + |l * M.sin (M.atan2 (v * M.sin (v * t / R + θ) + W * M.sin A)
                (v * M.cos (v * t / R + θ) + W * M.cos A) - v * t / R)|))
          * (M.sqrt ((v * M.cos (v * t / R + θ) + W * M.cos A)
                * ((v * M.cos (v * t / R + θ) + W * M.cos A) * 1)
              + (v * M.sin (v * t / R + θ) + W * M.sin A)
                * ((v * M.sin (v * t / R + θ) + W * M.sin A) * 1))
            * (M.sqrt ((v * M.cos (v * t / R + θ) + W * M.cos A)
                * ((v * M.cos (v * t / R + θ) + W * M.cos A) * 1)
              + (v * M.sin (v * t / R + θ) + W * M.sin A)
                * ((v * M.sin (v * t / R + θ) + W * M.sin A) * 1)) * 1))
          / (28705 / 100 * T)) := by
  have hG : (28705 / 100 : ℚ) * T ≠ 0 := mul_ne_zero (by norm_num) hT0
  simp only [stepAeroForce, calculateAerodynamicForce, calculateCrossSectionalArea,
    calculateLambda, calculateRelativeVelocityHorizontal, calculateRelativeVelocityVertical,
    calculatePhi, hh, hw, hl, hR, hP, hT, hW, hA, hθ, GAS_CONSTANT, DRAG_COEFFICIENT,
    ld.fin_mul_fin, ld.fin_div_fin _ _ hR0, ld.fin_add_fin, ld.sin, ld.cos, ld.atan2,
    ld.fin_sub_fin, ld.fabs, calculateRelativeVelocity_fin, ld.pow,
    ld.fin_div_fin _ _ hG]

/-- The geometry of the default model under `reducedMath`. -/
theorem wind_geometry :
    withGeometry reducedMath (initial reducedMath)
      = { params := (initial reducedMath).params, theta := ld.fin calmTheta,
          alpha := ld.fin windAlpha } := by
  have hθ : tireAngle reducedMath (initial reducedMath).params = ld.fin calmTheta := by
    have e : (initial reducedMath).params.wheelbase
        / (2 * (initial reducedMath).params.curveRadius) = ld.fin (3 / 20) := by
      simp only [initial, VehicleParameters.default, ld.ofNat_def, ld.fin_mul_fin]
      rw [ld.fin_div_fin _ _ (by norm_num)]
      norm_num
    rw [tireAngle, e]
    simp only [ld.asin]
    rw [if_pos (by norm_num)]
    simp only [ld.fabs, reducedMath, calmTheta]
    norm_num [abs_of_pos]
  have hα : supportAngle reducedMath (initial reducedMath).params = ld.fin windAlpha := by
    rw [supportAngle, hθ]
    simp only [initial, VehicleParameters.default, ld.ofNat_def, ld.fin_mul_fin,
      ld.fin_add_fin, ld.cos, ld.sin]
    rw [ld.fin_div_fin _ _ (by
      rw [reducedMath_sin_small _ (by norm_num [calmTheta]) (by norm_num [calmTheta])]
      norm_num [sinSeries, calmTheta])]
    simp only [ld.atan, windAlpha]
  simp only [withGeometry, hθ, hα]

/-- The wind angle of the default model under `reducedMath`. -/
theorem wind_angle : (initial reducedMath).params.windAngle = ld.fin (355 / 226) := by
  simp only [initial, VehicleParameters.default, reducedMath]
  rw [ld.fin_div_fin _ _ (by norm_num)]
  norm_num

/-- The default model at rest: the relative wind blows across, at the bearing
`M_PI / 2`. -/
theorem wind_rest_bearing :
    stepBearing reducedMath (withGeometry reducedMath (initial reducedMath)) 0 0
      = ld.fin (355 / 226) := by
  rw [wind_geometry]
  have h := stepBearing_fin reducedMath
    { params := (initial reducedMath).params, theta := ld.fin calmTheta,
      alpha := ld.fin windAlpha } 30 25 (355 / 226) calmTheta 0 0 rfl (by norm_num) rfl
    wind_angle rfl
  rw [reducedMath_sin_near (355 / 226) (by norm_num) (by norm_num),
    reducedMath_cos_near (355 / 226) (by norm_num) (by norm_num)] at h
  norm_num [sinSeries, cosSeries] at h
  rw [reducedMath_atan2_across] at h
  exact h

/-- The default model at rest: the aerodynamic force of the wind. -/
theorem wind_rest_aero :
    stepAeroForce reducedMath (withGeometry reducedMath (initial reducedMath)) 0 0
      = ld.fin windForce := by
  rw [wind_geometry]
  have h := stepAeroForce_fin reducedMath
    { params := (initial reducedMath).params, theta := ld.fin calmTheta,
      alpha := ld.fin windAlpha } (38 / 10) (239 / 100) 12 30 101330 313 25 (355 / 226)
    calmTheta 0 0 rfl rfl rfl rfl (by norm_num) rfl rfl (by norm_num) rfl wind_angle rfl
  rw [reducedMath_sin_near (355 / 226) (by norm_num) (by norm_num),
    reducedMath_cos_near (355 / 226) (by norm_num) (by norm_num)] at h
  norm_num [sinSeries, cosSeries] at h
  rw [reducedMath_atan2_across,
    reducedMath_sin_near (355 / 226) (by norm_num) (by norm_num),
    reducedMath_cos_near (355 / 226) (by norm_num) (by norm_num),
    reducedMath_sqrt_625] at h
  norm_num [sinSeries, cosSeries] at h
  refine h.trans ?_
  rw [windForce]
  congr 1
  norm_num

/-- The default model at rest has no centripetal force. -/
theorem wind_rest_centripetal :
    (withGeometry reducedMath (initial reducedMath)).calculateCentripetalForce 0 = 0 :=
  centripetalForce_zero _ 12500 (3239 / 100) rfl
    (by simp only [withGeometry, initial, VehicleParameters.default, ld.fin_add_fin]; norm_num)
    (by norm_num)

/-- The cosine series is even. -/
theorem cosSeries_neg (x : ℚ) : cosSeries (-x) = cosSeries x := by
  simp only [cosSeries]
  ring

/-- The support angle of the default model under `reducedMath`, about `0.0306`. -/
theorem windAlpha_bounds : 3 / 100 < windAlpha ∧ windAlpha < 31 / 1000 := by
  rw [windAlpha, reducedMath_sin_small _ (by norm_num [calmTheta]) (by norm_num [calmTheta]),
    reducedMath_cos_small _ (by norm_num [calmTheta]) (by norm_num [calmTheta])]
  norm_num [reducedMath, sinSeries, cosSeries, calmTheta]

/-- The default model at rest in its crosswind: the loads of the step at
`time = 0` are those of the wind alone, about `16684` N on the front tires,
`16875` N on the rear tires and a torque of about `32047` N m. -/
theorem wind_rest_loads :
    stepLoads reducedMath (withGeometry reducedMath (initial reducedMath)) 0
        ((withGeometry reducedMath (initial reducedMath)).calculateCentripetalForce 0)
        ((withGeometry reducedMath (initial reducedMath)).calculateModifiedCentripetalForce
          reducedMath
          ((withGeometry reducedMath (initial reducedMath)).calculateCentripetalForce 0))
        0
      = { frontForce := ld.fin (windForce * cosSeries calmTheta)
          rearForce := ld.fin windForce
          torque := ld.fin (19 / 10 * (windForce * cosSeries windAlpha)) } := by
  have hα := windAlpha_bounds
  have hF : (0 : ℚ) < windForce := by norm_num [windForce]
  have hc : 0 < cosSeries windAlpha := by
    have h2 : windAlpha ^ 2 < 1 := by nlinarith [hα.1, hα.2]
    have h4 : 0 ≤ windAlpha ^ 4 := by positivity
    simp only [cosSeries]
    linarith
  rw [stepLoads_eq, wind_rest_aero, wind_rest_bearing, wind_rest_centripetal,
    calculateModifiedCentripetalForce, wind_geometry]
  simp only [ld.ofNat_def, ld.fin_sub_fin, ld.sin, ld.cos, ld.fin_mul_fin, ld.fin_add_fin,
    initial, VehicleParameters.default]
  rw [ld.fin_div_fin _ _ (by norm_num)]
  simp only [ld.fin_mul_fin, ld.fabs]
  rw [reducedMath_sin_near (355 / 226 - calmTheta) (by norm_num [calmTheta])
      (by norm_num [calmTheta]),
    reducedMath_sin_near (355 / 226) (by norm_num) (by norm_num),
    reducedMath_sin_near (355 / 226 - windAlpha) (by linarith [hα.2]) (by linarith [hα.1]),
    show (355 / 226 - calmTheta - 355 / 226 : ℚ) = -calmTheta by ring,
    show (355 / 226 - windAlpha - 355 / 226 : ℚ) = -windAlpha by ring,
    cosSeries_neg, cosSeries_neg, sub_self,
    abs_of_pos (by have := mul_pos hF hc; linarith)]
  congr 2
  · ring
  · norm_num [cosSeries]
  · ring

/-- The weight torque of the default model under `reducedMath`, about `164666`
N m. -/
theorem wind_weightTorque :
    weightTorque reducedMath (withGeometry reducedMath (initial reducedMath))
      = ld.fin (12500 * (980665 / 100000) * (239 / 100 + 3 / 10 * cosSeries calmTheta) / 2) := by
  rw [wind_geometry]
  simp only [weightTorque, initial, VehicleParameters.default, GRAVITY, ld.ofNat_def, ld.cos,
    ld.fin_mul_fin, ld.fin_add_fin]
  rw [ld.fin_div_fin _ _ (by norm_num),
    reducedMath_cos_small _ (by norm_num [calmTheta]) (by norm_num [calmTheta])]

/-- The friction limit of the default model, `49033.25` N. -/
theorem wind_frictionLimit :
    frictionLimit (withGeometry reducedMath (initial reducedMath)) = ld.fin (196133 / 4) := by
  simp only [frictionLimit, withGeometry, initial, VehicleParameters.default, GRAVITY,
    ld.fin_mul_fin]
  norm_num

/-- C12, amended, at the default model at rest in its crosswind of `25` m/s: the
wind alone loads the front tires with about `16684` N, the rear tires with about
`16875` N, and tilts the vehicle with a torque of about `32047` N m; the limits
are `49033.25` N and about `164666` N m, and the model is stable. -/
theorem zero_speed_boundary_witness :
    (initial reducedMath).params.mass = ld.fin 12500 ∧
      (initial reducedMath).params.curveRadius + (initial reducedMath).params.width
        = ld.fin (3239 / 100) ∧
      stepAeroForce reducedMath (withGeometry reducedMath (initial reducedMath)) 0 0
        = ld.fin windForce ∧
      (16874 : ℚ) < windForce ∧
      ld.lt (ld.fin 32000)
        (stepLoads reducedMath (withGeometry reducedMath (initial reducedMath)) 0
          ((withGeometry reducedMath (initial reducedMath)).calculateCentripetalForce 0)
          ((withGeometry reducedMath (initial reducedMath)).calculateModifiedCentripetalForce
            reducedMath
            ((withGeometry reducedMath (initial reducedMath)).calculateCentripetalForce 0))
          0).torque = true ∧
      ld.lt 0 (weightTorque reducedMath (withGeometry reducedMath (initial reducedMath)))
        = true ∧
      ld.lt 0 (frictionLimit (withGeometry reducedMath (initial reducedMath))) = true ∧
      (initial reducedMath).calculateCentripetalForce 0 = 0 ∧
      ((initial reducedMath).checkMaximumLimits reducedMath 0).1 = false := by
  have hα := windAlpha_bounds
  have hF : (16874 : ℚ) < windForce ∧ windForce < 16875 := by
    constructor <;> norm_num [windForce]
  have hcα : 999 / 1000 < cosSeries windAlpha ∧ cosSeries windAlpha < 1 := by
    have h2 : windAlpha ^ 2 < 1 / 1000 := by nlinarith [hα.1, hα.2]
    have h20 : 0 < windAlpha ^ 2 := by nlinarith [hα.1]
    have h4 : windAlpha ^ 4 = windAlpha ^ 2 * windAlpha ^ 2 := by ring
    simp only [cosSeries]
    constructor <;> nlinarith
  have hcθ : 98 / 100 < cosSeries calmTheta ∧ cosSeries calmTheta < 1 := by
    constructor <;> norm_num [cosSeries, calmTheta]
  have hd : (initial reducedMath).params.curveRadius + (initial reducedMath).params.width
      = ld.fin (3239 / 100) := by
    simp only [initial, VehicleParameters.default, ld.fin_add_fin]
    norm_num
  have hw : ld.lt 0 (weightTorque reducedMath (withGeometry reducedMath (initial reducedMath)))
      = true := by
    rw [wind_weightTorque]
    simp only [ld.ofNat_def, ld.lt, decide_eq_true_eq]
    nlinarith [hcθ.1]
  have hf : ld.lt 0 (frictionLimit (withGeometry reducedMath (initial reducedMath))) = true := by
    rw [wind_frictionLimit]
    simp only [ld.ofNat_def, ld.lt, decide_eq_true_eq]
    norm_num
  have hz := zero_speed_boundary reducedMath (initial reducedMath)
  refine ⟨rfl, hd, wind_rest_aero, hF.1, ?_, hw, hf, hz.1 12500 (3239 / 100) rfl hd (by norm_num),
    hz.2 hw hf ?_ ?_ ?_⟩
  · rw [wind_rest_loads]
    simp only [ld.lt, decide_eq_true_eq]
    nlinarith [hF.1, hcα.1]
  · rw [wind_rest_loads, wind_weightTorque]
    simp only [ld.lt, decide_eq_true_eq]
    nlinarith [hF.2, hcα.2, hcθ.1, hF.1, hcα.1]
  · rw [wind_rest_loads, wind_frictionLimit]
    simp only [ld.lt, decide_eq_true_eq]
    nlinarith [hF.2, hcθ.2, hF.1, hcθ.1]
  · rw [wind_rest_loads, wind_frictionLimit]
    simp only [ld.lt, decide_eq_true_eq]
    linarith [hF.2]

end SafeSpeedCalculator

end VehicleSafety
